import Mathlib

/-!
Verification development for the Cross3D prism edge network
(`src/infill/Cross3DPrismEdgeNetwork.cpp`).

The C++ source is shallowly embedded below: machine integers (`coord_t`,
micrometer coordinates) become `Int`, C++ integer division (truncation
toward zero) becomes `Int.tdiv`, `std::vector<Point3>` becomes
`List Point3`, and the two `std::map<const Cell*, std::vector<Point3>>`
mappings become functions `Nat → Option (List Point3)` keyed by cell index.
C++ `assert` + undefined behaviour points (out-of-range reads, failed map
lookups) are totalized: the embedded function leaves the state unchanged
there; each such point is marked with a comment.
-/

namespace Cross3DPrism

/-- Kernel-reducible integer square root (digit recursion with fuel).
`Nat.sqrt` of Mathlib is defined by well-founded recursion and does not
reduce inside `decide`; this function does, and `isqrt_eq_sqrt` below
proves it computes exactly `Nat.sqrt`, i.e. the floor square root that
the C++ `sqrt`-on-double in `vSize` produces on the integer ranges used. -/
def isqrtAux : Nat → Nat → Nat
  | 0, _ => 0
  | fuel + 1, n =>
    if n < 2 then n
    else
      let r := 2 * isqrtAux fuel (n / 4)
      if (r + 1) * (r + 1) ≤ n then r + 1 else r

def isqrt (n : Nat) : Nat := isqrtAux n n

/-- 2D integer point (`Point` / `IntPoint` in the source, micrometers). -/
structure Point where
  x : Int
  y : Int
deriving DecidableEq

/-- 3D integer point (`Point3` in the source, micrometers). -/
structure Point3 where
  x : Int
  y : Int
  z : Int
deriving DecidableEq

def psub (a b : Point) : Point := ⟨a.x - b.x, a.y - b.y⟩

def padd (a b : Point) : Point := ⟨a.x + b.x, a.y + b.y⟩

def pmuls (a : Point) (c : Int) : Point := ⟨a.x * c, a.y * c⟩

/-- Componentwise C++ integer division (truncation toward zero). -/
def pdivs (a : Point) (c : Int) : Point := ⟨a.x.tdiv c, a.y.tdiv c⟩

/-- Squared 2D length (`vSize2` on `Point`). -/
def vSize2 (p : Point) : Int := p.x * p.x + p.y * p.y

/-- 2D length (`vSize` on `Point`): floor square root of `vSize2`. -/
def vSize (p : Point) : Int := Int.ofNat (isqrt (vSize2 p).toNat)

def toPoint (p : Point3) : Point := ⟨p.x, p.y⟩

def p3sub (a b : Point3) : Point3 := ⟨a.x - b.x, a.y - b.y, a.z - b.z⟩

def p3add (a b : Point3) : Point3 := ⟨a.x + b.x, a.y + b.y, a.z + b.z⟩

def p3muls (a : Point3) (c : Int) : Point3 := ⟨a.x * c, a.y * c, a.z * c⟩

/-- Componentwise C++ integer division (truncation toward zero),
the semantics of `Point3::operator/` on `coord_t`. -/
def p3divs (a : Point3) (c : Int) : Point3 := ⟨a.x.tdiv c, a.y.tdiv c, a.z.tdiv c⟩

/-- Squared 3D length (`Point3::vSize2`). -/
def Point3.vSize2 (p : Point3) : Int := p.x * p.x + p.y * p.y + p.z * p.z

/-- 3D length: floor square root of `Point3.vSize2`. Used only by the
spec-side model of the bend computation (the C++ routine itself uses the
2D `vSize`). -/
def vSize3 (p : Point3) : Int := Int.ofNat (isqrt p.vSize2.toNat)

/-- The four-valued direction tag (`Cross3D::Direction`). -/
inductive Direction where
  | LEFT
  | RIGHT
  | UP
  | DOWN
deriving DecidableEq

/-- `Cross3D::opposite`: swaps LEFT↔RIGHT and UP↔DOWN. -/
def Direction.opposite : Direction → Direction
  | .LEFT => .RIGHT
  | .RIGHT => .LEFT
  | .UP => .DOWN
  | .DOWN => .UP

/-- An oriented 2D segment (`LineSegment` in the source, fields `from`/`to`;
renamed `fromP`/`toP` because `from` is a Lean keyword). -/
structure LineSegment where
  fromP : Point
  toP : Point
deriving DecidableEq

/-- A leaf cell of the subdivision (`Cross3D::Cell` with its `Prism` elem):
depth (a C++ `char`, embedded as `Int`; `std::numeric_limits<char>::max()`
is `127`), the prism's z-range, the oscillation phase flag `is_expanding`,
the triangle's two side edges, and the four ordered adjacency lists of
neighbor cell indices (`adjacent_cells`, `Link::to_index`). -/
structure Cell where
  depth : Int
  z_min : Int
  z_max : Int
  is_expanding : Bool
  fromEdge : LineSegment
  toEdge : LineSegment
  adjLeft : List Nat
  adjRight : List Nat
  adjUp : List Nat
  adjDown : List Nat
deriving DecidableEq

def Cell.adjacent (c : Cell) : Direction → List Nat
  | .LEFT => c.adjLeft
  | .RIGHT => c.adjRight
  | .UP => c.adjUp
  | .DOWN => c.adjDown

/-- The subdivision structure, reduced to what the edge network reads:
`cell_data`, the arena of cells indexed by `Nat`. -/
structure Cross3D where
  cell_data : List Cell
deriving DecidableEq

def defaultCell : Cell :=
  ⟨0, 0, 0, true, ⟨⟨0, 0⟩, ⟨0, 0⟩⟩, ⟨⟨0, 0⟩, ⟨0, 0⟩⟩, [], [], [], []⟩

/-- `subdivision_structure->cell_data[i]`; out-of-range access (impossible
for well-formed structures, UB in C++) is totalized with `defaultCell`. -/
def cellAt (s : Cross3D) (i : Nat) : Cell := s.cell_data.getD i defaultCell

/-- The two edge-ownership mappings
(`cell_to_left_edge_locations` / `cell_to_right_edge_locations`),
keyed by cell index. -/
structure EdgeMaps where
  left : Nat → Option (List Point3)
  right : Nat → Option (List Point3)

def emptyMaps : EdgeMaps := ⟨fun _ => none, fun _ => none⟩

def updF (f : Nat → Option (List Point3)) (i : Nat) (v : List Point3) :
    Nat → Option (List Point3) :=
  fun j => if j = i then some v else f j

/-- Selects the mapping a side name refers to: LEFT side ↦ left-edge map,
otherwise the right-edge map. -/
def mapFor (maps : EdgeMaps) (d : Direction) : Nat → Option (List Point3) :=
  if d = Direction.LEFT then maps.left else maps.right

/-- `Cross3DPrismEdgeNetwork::getNeighborDepth`: depth of the front
neighbor in the given direction, or `std::numeric_limits<char>::max() = 127`
when there is no neighbor. -/
def getNeighborDepth (s : Cross3D) (cell : Cell) (direction : Direction) : Int :=
  match cell.adjacent direction with
  | [] => 127
  | i :: _ => (cellAt s i).depth

/-- `Cross3DPrismEdgeNetwork::adjustEdgeEnd`. The endpoint to move is the
back of the polyline for UP, the front for DOWN; `lower_edge_location` is
its neighbor inside the polyline (`edge_locations[size-2]` resp.
`edge_locations[1]`); the bend is
`to_be_moved + edge_direction_vector * move_length / 2 / edge_direction_vector_length`
with C++ left-to-right evaluation and componentwise truncating division,
where `move_length` and `edge_direction_vector_length` are 2D lengths.
Lists too short for the C++ indexing (UB there) are returned unchanged. -/
def adjustEdgeEnd (edge_locations : List Point3) (up_down : Direction)
    (move_destination : Point3) : List Point3 :=
  match (if up_down = Direction.UP then edge_locations.getLast? else edge_locations.head?) with
  | none => edge_locations
  | some to_be_moved =>
    if to_be_moved = move_destination then edge_locations
    else
      match (if up_down = Direction.UP then edge_locations.get? (edge_locations.length - 2)
             else edge_locations.get? 1) with
      | none => edge_locations
      | some lower_edge_location =>
        let move_length := vSize (psub (toPoint move_destination) (toPoint to_be_moved))
        let edge_direction_vector := p3sub lower_edge_location to_be_moved
        let edge_direction_vector_length := vSize (toPoint edge_direction_vector)
        let bending_point :=
          p3add to_be_moved
            (p3divs (p3divs (p3muls edge_direction_vector move_length) 2)
              edge_direction_vector_length)
        if 100 < (p3sub bending_point lower_edge_location).vSize2 ∧
            100 < (p3sub bending_point move_destination).vSize2 then
          (if up_down = Direction.UP then
            edge_locations.dropLast ++ [bending_point, move_destination]
          else move_destination :: bending_point :: edge_locations.tail)
        else
          (if up_down = Direction.UP then edge_locations.dropLast ++ [move_destination]
          else move_destination :: edge_locations.tail)

/-- The reference-edge selection inside
`Cross3DPrismEdgeNetwork::applyOscillationConstraints` (lines 79–110):
returns `none` when no constraint applies — empty `adjacent[up_down]`
(top/bottom layer), an empty lateral list of the upstairs neighbor (C++
asserts there), or the cell being at least as deep as both reference
candidates — and otherwise the cell index whose stored edge constrains
this one, together with the side-map that edge lives in. -/
def oscRef (s : Cross3D) (i : Nat) (edge_side up_down : Direction) :
    Option (Nat × Direction) :=
  let cell := cellAt s i
  match cell.adjacent up_down with
  | [] => none
  | n :: t =>
    let upstairs_neighbor_idx := if edge_side = Direction.LEFT then n else (n :: t).getLastD n
    let upstairs_neighbor := cellAt s upstairs_neighbor_idx
    match upstairs_neighbor.adjacent edge_side with
    | [] => none
    | m :: ms =>
      let upstairs_side_neighbor_idx := if up_down = Direction.UP then m else (m :: ms).getLastD m
      let upstairs_side_neighbor := cellAt s upstairs_side_neighbor_idx
      if max upstairs_neighbor.depth upstairs_side_neighbor.depth ≤ cell.depth then none
      else if upstairs_side_neighbor.depth < upstairs_neighbor.depth ∨
          (edge_side = Direction.RIGHT ∧ upstairs_neighbor.depth = upstairs_side_neighbor.depth)
      then some (upstairs_neighbor_idx, edge_side)
      else some (upstairs_side_neighbor_idx, edge_side.opposite)

/-- `Cross3DPrismEdgeNetwork::applyOscillationConstraints`: if a reference
edge is selected, look it up (a failed lookup is a C++ assertion —
"missing ownership" — totalized as no change) and pull this polyline's
end toward the reference polyline's front (UP) or back (DOWN). -/
def applyOscillationConstraints (s : Cross3D) (maps : EdgeMaps) (i : Nat)
    (edge_side up_down : Direction) (edge_locations : List Point3) : List Point3 :=
  match oscRef s i edge_side up_down with
  | none => edge_locations
  | some (r, mside) =>
    match mapFor maps mside r with
    | none => edge_locations
    | some edge_above =>
      match (if up_down = Direction.UP then edge_above.head? else edge_above.getLast?) with
      | none => edge_locations
      | some move_destination => adjustEdgeEnd edge_locations up_down move_destination

/-- The initial 2-point polyline of `Cross3DPrismEdgeNetwork::addCellEdge`:
the triangle side edge (from-edge for LEFT, to-edge for RIGHT), endpoints
swapped when `!is_expanding`, lifted to `z_range.min` / `z_range.max`. -/
def initialEdge (cell : Cell) (edge_side : Direction) : List Point3 :=
  let edge0 := if edge_side = Direction.LEFT then cell.fromEdge else cell.toEdge
  let edge := if cell.is_expanding then edge0 else ⟨edge0.toP, edge0.fromP⟩
  [⟨edge.fromP.x, edge.fromP.y, cell.z_min⟩, ⟨edge.toP.x, edge.toP.y, cell.z_max⟩]

/-- `Cross3DPrismEdgeNetwork::addCellEdge` without the final `emplace`:
build the initial polyline and apply the oscillation constraints,
first UP then DOWN. -/
def addCellEdge (s : Cross3D) (maps : EdgeMaps) (i : Nat) (edge_side : Direction) :
    List Point3 :=
  let l0 := initialEdge (cellAt s i) edge_side
  let l1 := applyOscillationConstraints s maps i edge_side Direction.UP l0
  applyOscillationConstraints s maps i edge_side Direction.DOWN l1

/-- `Cross3DPrismEdgeNetwork::addCellEdges`: store the LEFT edge iff
`depth > getNeighborDepth(LEFT)`, then the RIGHT edge iff
`depth >= getNeighborDepth(RIGHT)` (the OWN ownership tests). -/
def addCellEdges (s : Cross3D) (maps : EdgeMaps) (i : Nat) : EdgeMaps :=
  let cell := cellAt s i
  let maps1 :=
    if getNeighborDepth s cell Direction.LEFT < cell.depth then
      { maps with left := updF maps.left i (addCellEdge s maps i Direction.LEFT) }
    else maps
  if getNeighborDepth s cell Direction.RIGHT ≤ cell.depth then
    { maps1 with right := updF maps1.right i (addCellEdge s maps1 i Direction.RIGHT) }
  else maps1

/-- `Cross3DPrismEdgeNetwork::getEdge`: the polyline governing the cell's
side at its UP/DOWN end.  The deciding lateral neighbor is
`adjacent[edge_side].back()` for UP, `.front()` for DOWN; it owns the edge
when strictly deeper, or at equal depth when the side is LEFT, in which
case the edge sits in the neighbor's opposite-side mapping; otherwise in
the cell's own side mapping.  An empty lateral list or failed lookup is
C++ UB / assertion, totalized as `none`. -/
def getEdge (s : Cross3D) (maps : EdgeMaps) (i : Nat) (edge_side up_down : Direction) :
    Option (List Point3) :=
  let cell := cellAt s i
  match cell.adjacent edge_side with
  | [] => none
  | n :: t =>
    let nIdx := if up_down = Direction.UP then (n :: t).getLastD n else n
    let neighbor := cellAt s nIdx
    if cell.depth < neighbor.depth ∨
        (edge_side = Direction.LEFT ∧ neighbor.depth = cell.depth) then
      mapFor maps edge_side.opposite nIdx
    else
      mapFor maps edge_side i

/-- `Cross3DPrismEdgeNetwork::preventZdiscontinuityProblem`.  When the cell
has at least two neighbors in direction `up_down`, intersect the front
(leftmost) upstairs neighbor's to-edge with the 2D segment between this
cell's LEFT- and RIGHT-side edge endpoints at that boundary, lift the
intersection to the neighbor's boundary z, and pull the neighbor's
stored RIGHT-edge polyline toward it in direction `opposite(up_down)`.
`intersection` abstracts `LinearAlg2D::intersection`, whose source is not
part of this repository slice; every theorem below holds for any such
function. -/
def preventZdiscontinuityProblem (s : Cross3D)
    (intersection : LineSegment → LineSegment → Point) (maps : EdgeMaps)
    (i : Nat) (up_down : Direction) : EdgeMaps :=
  let cell := cellAt s i
  let upstairs_neighbors := cell.adjacent up_down
  if upstairs_neighbors.length < 2 then maps
  else
    match getEdge s maps i Direction.LEFT up_down, getEdge s maps i Direction.RIGHT up_down with
    | some from_edge, some to_edge =>
      match (if up_down = Direction.UP then from_edge.getLast? else from_edge.head?),
          (if up_down = Direction.UP then to_edge.getLast? else to_edge.head?) with
      | some f3, some t3 =>
        let leftmost_idx := upstairs_neighbors.headD 0
        let leftmost := cellAt s leftmost_idx
        match maps.right leftmost_idx with
        | none => maps
        | some trouble_edge_locations =>
          let trouble_edge_middle := intersection leftmost.toEdge ⟨toPoint f3, toPoint t3⟩
          let trouble_edge_middle_3d : Point3 :=
            ⟨trouble_edge_middle.x, trouble_edge_middle.y,
              if up_down = Direction.UP then leftmost.z_min else leftmost.z_max⟩
          { maps with
            right := updF maps.right leftmost_idx
              (adjustEdgeEnd trouble_edge_locations up_down.opposite trouble_edge_middle_3d) }
      | _, _ => maps
    | _, _ => maps

/-- Largest non-negative cell depth, the index of the last layer of
`Cross3D::getDepthOrdered`. -/
def maxDepthNat (s : Cross3D) : Nat :=
  s.cell_data.foldl (fun acc c => max acc c.depth.toNat) 0

/-- The cells of one depth layer of `getDepthOrdered`, in index order. -/
def layerCells (s : Cross3D) (d : Nat) : List Nat :=
  (List.range s.cell_data.length).filter (fun i => (cellAt s i).depth = (d : Int))

/-- Traversal order of the constructor's first pass: depth-descending
(`depth_idx` from `depth_ordered_cells.size() - 1` down to `0`). -/
def pass1Order (s : Cross3D) : List Nat :=
  ((List.range (maxDepthNat s + 1)).reverse.map (layerCells s)).flatten

/-- Traversal order of the constructor's second pass: depth-ascending. -/
def pass2Order (s : Cross3D) : List Nat :=
  ((List.range (maxDepthNat s + 1)).map (layerCells s)).flatten

/-- The state after the constructor's first pass (edge building). -/
def buildPass1 (s : Cross3D) : EdgeMaps :=
  (pass1Order s).foldl (addCellEdges s) emptyMaps

/-- One cell's step of the second pass: discontinuity resolution UP
then DOWN. -/
def resolveCell (s : Cross3D) (intersection : LineSegment → LineSegment → Point)
    (maps : EdgeMaps) (i : Nat) : EdgeMaps :=
  preventZdiscontinuityProblem s intersection
    (preventZdiscontinuityProblem s intersection maps i Direction.UP) i Direction.DOWN

/-- The full `Cross3DPrismEdgeNetwork` constructor: the depth-descending
edge-building pass followed by the depth-ascending discontinuity pass. -/
def constructNetwork (intersection : LineSegment → LineSegment → Point)
    (s : Cross3D) : EdgeMaps :=
  (pass2Order s).foldl (resolveCell s intersection) (buildPass1 s)

/-- Result of the interpolation scan of
`Cross3DPrismEdgeNetwork::getCellEdgeLocation`: whether an assertion
fires (the defensive `assert(edge_direction != Point(0,0))`, or running
past the polyline into `assert(false)` after an out-of-bounds read), and
the 2D point the release build would return, if any. -/
structure ScanResult where
  fired : Bool
  pt : Option Point
deriving DecidableEq

/-- The interpolation loop of `getCellEdgeLocation` (lines 202–214): scan
consecutive pairs until `z <= edge_locations[idx + 1].z`, then
linearly interpolate the XY position at `z` between the two samples with
C++ truncating integer division. -/
def getCellEdgeLocationScan : List Point3 → Int → ScanResult
  | below :: above :: rest, z =>
    if z ≤ above.z then
      let rest_z := z - below.z
      let edge_direction := psub (toPoint above) (toPoint below)
      ⟨edge_direction = (⟨0, 0⟩ : Point),
        some (padd (toPoint below) (pdivs (pmuls edge_direction rest_z) (above.z - below.z)))⟩
    else getCellEdgeLocationScan (above :: rest) z
  | _, _ => ⟨true, none⟩

/-- The polyline chosen by `getCellEdgeLocation` for the shared edge of
`before` (left) and `after` (right): `after`'s LEFT polyline when `after`
is strictly deeper, else `before`'s RIGHT polyline. -/
def getCellEdgeLookup (maps : EdgeMaps) (s : Cross3D) (before after : Nat) :
    Option (List Point3) :=
  if (cellAt s before).depth < (cellAt s after).depth then maps.left after
  else maps.right before

/-- The strict Z-monotonicity half of invariant POLY, as a decidable check. -/
def zStrictMono : List Point3 → Bool
  | [] => true
  | [_] => true
  | a :: b :: rest => decide (a.z < b.z) && zStrictMono (b :: rest)

/-- Weak Z-monotonicity of a polyline. -/
def zWeakMono : List Point3 → Bool
  | [] => true
  | [_] => true
  | a :: b :: rest => decide (a.z ≤ b.z) && zWeakMono (b :: rest)

/-- Consecutive points all differ in XY (rules out the vertical segments
that trip `getCellEdgeLocation`'s defensive assertion). -/
def xyDistinct : List Point3 → Bool
  | [] => true
  | [_] => true
  | a :: b :: rest => decide (toPoint a ≠ toPoint b) && xyDistinct (b :: rest)

/-- The per-segment inclination predicate asserted by
`Cross3DPrismEdgeNetwork::debugCheckInclination`:
`atan(INT2MM(z) / INT2MM(xy)) > 35°`, read as exact real arithmetic
(the two `INT2MM` factors of 1/1000 cancel in the ratio). -/
def inclinationOK (below above : Point3) : Prop :=
  Real.arctan (((above.z - below.z : Int) : ℝ) /
    ((vSize (psub (toPoint above) (toPoint below)) : Int) : ℝ)) >
    35 * Real.pi / 180

/-- The endpoint `adjustEdgeEnd` moves: back of the polyline for UP,
front for DOWN (arbitrary default on the empty list, on which
`adjustEdgeEnd` is the identity anyway). -/
def endPointToMove (l : List Point3) (up_down : Direction) : Point3 :=
  ((if up_down = Direction.UP then l.getLast? else l.head?).getD ⟨0, 0, 0⟩)

/-- Z of the last polyline sample (0 for the empty list). -/
def lastZ (l : List Point3) : Int := ((l.getLast?).map Point3.z).getD 0

/-- Modelled from the spec: the Adjust Edge End routine exactly as claim C4
words it — `bend = t + dir * (m / 2) / n` with the halving applied to the
move length before the multiplication, and `n = ||a - t||` the **3D**
length of the adjacent segment.  This is the claim-side reference point;
the code-side `adjustEdgeEnd` above instead evaluates
`dir * m / 2 / n` left to right with `n` a 2D length. -/
def adjustEdgeEndClaimModel (edge_locations : List Point3) (up_down : Direction)
    (move_destination : Point3) : List Point3 :=
  match (if up_down = Direction.UP then edge_locations.getLast? else edge_locations.head?) with
  | none => edge_locations
  | some to_be_moved =>
    if to_be_moved = move_destination then edge_locations
    else
      match (if up_down = Direction.UP then edge_locations.get? (edge_locations.length - 2)
             else edge_locations.get? 1) with
      | none => edge_locations
      | some lower_edge_location =>
        let move_length := vSize (psub (toPoint move_destination) (toPoint to_be_moved))
        let edge_direction_vector := p3sub lower_edge_location to_be_moved
        let adjacent_length_3d := vSize3 edge_direction_vector
        let bending_point :=
          p3add to_be_moved
            (p3divs (p3muls edge_direction_vector (move_length.tdiv 2)) adjacent_length_3d)
        if 100 < (p3sub bending_point lower_edge_location).vSize2 ∧
            100 < (p3sub bending_point move_destination).vSize2 then
          (if up_down = Direction.UP then
            edge_locations.dropLast ++ [bending_point, move_destination]
          else move_destination :: bending_point :: edge_locations.tail)
        else
          (if up_down = Direction.UP then edge_locations.dropLast ++ [move_destination]
          else move_destination :: edge_locations.tail)

/-- The OWN ownership test of `addCellEdges`, per side: LEFT is owned iff
the cell is strictly deeper than its front LEFT neighbor, any other
side's mapping (in practice RIGHT) iff at least as deep as the front
neighbor on that side. -/
def ownsSide (s : Cross3D) (i : Nat) (side : Direction) : Prop :=
  if side = Direction.LEFT then
    getNeighborDepth s (cellAt s i) Direction.LEFT < (cellAt s i).depth
  else
    getNeighborDepth s (cellAt s i) side ≤ (cellAt s i).depth

instance (s : Cross3D) (i : Nat) (side : Direction) : Decidable (ownsSide s i side) := by
  unfold ownsSide
  infer_instance

/-- Domain growth order on edge-map states: every stored entry of the
first state is also stored in the second. -/
def mapsLE (m1 m2 : EdgeMaps) : Prop :=
  (∀ j, (m1.left j).isSome → (m2.left j).isSome) ∧
    (∀ j, (m1.right j).isSome → (m2.right j).isSome)

/-- The first-pass state after all layers strictly deeper than depth `d`
have been processed — exactly the map contents visible when the builder
starts a depth-`d` cell's own layer. -/
def pass1Before (s : Cross3D) (d : Nat) : EdgeMaps :=
  (((List.range' (d + 1) (maxDepthNat s - d)).reverse.map (layerCells s)).flatten).foldl
    (addCellEdges s) emptyMaps

/-- Well-formedness of adjacency indices: every stored neighbor index is
a valid cell index. -/
def validAdjB (s : Cross3D) : Bool :=
  s.cell_data.all fun c =>
    [Direction.LEFT, Direction.RIGHT, Direction.UP, Direction.DOWN].all fun d =>
      (c.adjacent d).all fun j => decide (j < s.cell_data.length)

/-- Well-formedness of lateral adjacency: neighborhood is mutual — if `j`
is an S-neighbor of `i` then `i` is an opposite-S-neighbor of `j`. -/
def lateralMutualB (s : Cross3D) : Bool :=
  (List.range s.cell_data.length).all fun i =>
    [Direction.LEFT, Direction.RIGHT].all fun d =>
      ((cellAt s i).adjacent d).all fun j =>
        decide (i ∈ (cellAt s j).adjacent d.opposite)

/-- Well-formedness of lateral fan-out: a cell has two or more neighbors
along one side only when all of them are strictly deeper (finer) than the
cell itself. -/
def lateralMultiDeeperB (s : Cross3D) : Bool :=
  (List.range s.cell_data.length).all fun i =>
    [Direction.LEFT, Direction.RIGHT].all fun d =>
      !(decide (2 ≤ ((cellAt s i).adjacent d).length)) ||
        ((cellAt s i).adjacent d).all fun j =>
          decide ((cellAt s i).depth < (cellAt s j).depth)

/-- Placeholder for the externally supplied `LinearAlg2D::intersection`
in concrete scenarios whose resolver pass never reaches an intersection
(all `adjacent[UP/DOWN]` lists have fewer than two entries). -/
def constIntersection (_ _ : LineSegment) : Point := ⟨0, 0⟩

def dummySeg : LineSegment := ⟨⟨0, 0⟩, ⟨0, 0⟩⟩

/-- Four-cell scenario: coarse cell 0 with lateral-equal cell 3, under
fine cells 1 and 2.  Cell 0's oscillation constraint pulls its RIGHT
edge toward cell 1's edge; the halved move's z-offset rounds to zero, so
the inserted bend duplicates the endpoint's z. -/
def viewBendFlat : Cross3D := ⟨[
  ⟨0, 0, 10, true, dummySeg, ⟨⟨1000, 0⟩, ⟨0, 0⟩⟩, [], [3], [1], []⟩,
  ⟨1, 10, 20, true, dummySeg, ⟨⟨40, 0⟩, ⟨20, 30⟩⟩, [], [2], [], [0]⟩,
  ⟨1, 10, 20, true, dummySeg, dummySeg, [1], [], [], []⟩,
  ⟨0, 0, 10, true, dummySeg, dummySeg, [0], [], [], []⟩]⟩

/-- Two equal-depth lateral cells whose shared edge is long (1000 µm) and
whose z-range is short (10 µm): the stored polyline's only segment is far
shallower than 35°. -/
def viewShallowPair : Cross3D := ⟨[
  ⟨0, 0, 10, true, dummySeg, ⟨⟨0, 0⟩, ⟨1000, 0⟩⟩, [], [1], [], []⟩,
  ⟨0, 0, 10, true, dummySeg, dummySeg, [0], [], [], []⟩]⟩

/-- Two equal-depth lateral cells with a steep shared edge (10 µm of XY
over 1000 µm of Z). -/
def viewSteepPair : Cross3D := ⟨[
  ⟨0, 0, 1000, true, dummySeg, ⟨⟨0, 0⟩, ⟨10, 0⟩⟩, [], [1], [], []⟩,
  ⟨0, 0, 1000, true, dummySeg, dummySeg, [0], [], [], []⟩]⟩

/-- A single cell at depth 127, the `char` sentinel `getNeighborDepth`
returns for an empty adjacency list: the `>=` RIGHT ownership test
succeeds against the sentinel itself. -/
def viewDepthMax : Cross3D :=
  ⟨[⟨127, 0, 5, true, dummySeg, ⟨⟨0, 0⟩, ⟨10, 10⟩⟩, [], [], [], []⟩]⟩

/-- A single boundary cell at an ordinary depth with no neighbors at all. -/
def viewLoneCell : Cross3D :=
  ⟨[⟨5, 0, 10, true, dummySeg, ⟨⟨0, 0⟩, ⟨10, 10⟩⟩, [], [], [], []⟩]⟩

/-- The bend candidate of `adjustEdgeEnd` as a function of the adjacent
polyline point `a`, the endpoint `t` to move and the destination:
`t + (a - t) * move_length / 2 / adjacent_2d_length`, evaluated left to
right with componentwise truncating division, exactly as in the source. -/
def bendPoint (a t dest : Point3) : Point3 :=
  p3add t
    (p3divs
      (p3divs (p3muls (p3sub a t) (vSize (psub (toPoint dest) (toPoint t)))) 2)
      (vSize (toPoint (p3sub a t))))

/-- The bend-insertion condition of `adjustEdgeEnd`: both squared 3D
distances from the bend to the adjacent point and to the destination
exceed 100. -/
def bendFar (a t dest : Point3) : Prop :=
  100 < (p3sub (bendPoint a t dest) a).vSize2 ∧
    100 < (p3sub (bendPoint a t dest) dest).vSize2

instance (a t dest : Point3) : Decidable (bendFar a t dest) := by
  unfold bendFar
  infer_instance

theorem isqrtAux_eq_sqrt (fuel n : Nat) (h : n ≤ fuel) : isqrtAux fuel n = Nat.sqrt n := by
  induction fuel generalizing n with
  | zero =>
    interval_cases n
    simp [isqrtAux]
  | succ fuel ih =>
    rw [isqrtAux]
    by_cases h2 : n < 2
    · interval_cases n <;> simp
    · simp only [if_neg h2]
      have hrec : isqrtAux fuel (n / 4) = Nat.sqrt (n / 4) := by
        apply ih
        omega
      rw [hrec]
      have hs := Nat.sqrt_le' (n / 4)
      have hs2 := Nat.lt_succ_sqrt' (n / 4)
      set s := Nat.sqrt (n / 4) with hsdef
      have hdm := Nat.div_add_mod n 4
      have hmod : n % 4 < 4 := Nat.mod_lt _ (by omega)
      have hsq : s ^ 2 ≤ n / 4 := hs
      have hsq2 : n / 4 < (s + 1) ^ 2 := hs2
      have h4 : 4 * s ^ 2 ≤ 4 * (n / 4) := Nat.mul_le_mul (le_refl 4) hsq
      have h5 : 4 * (n / 4 + 1) ≤ 4 * (s + 1) ^ 2 :=
        Nat.mul_le_mul (le_refl 4) (Nat.succ_le_of_lt hsq2)
      have e1 : (2 * s) ^ 2 = 4 * s ^ 2 := by ring
      have e2 : (2 * s + 2) ^ 2 = 4 * (s + 1) ^ 2 := by ring
      have hm0 : 0 ≤ n % 4 := Nat.zero_le (n % 4)
      have hlow : (2 * s) ^ 2 ≤ n := by rw [e1]; linarith
      have hhigh : n < (2 * s + 2) ^ 2 := by rw [e2]; linarith
      have e3 : (2 * s + 1) * (2 * s + 1) = (2 * s + 1) ^ 2 := by ring
      by_cases hc : (2 * s + 1) * (2 * s + 1) ≤ n
      · rw [if_pos hc]
        rw [e3] at hc
        have h1 : 2 * s + 1 ≤ Nat.sqrt n := Nat.le_sqrt'.mpr hc
        have h2' : Nat.sqrt n < 2 * s + 2 := Nat.sqrt_lt'.mpr hhigh
        omega
      · rw [if_neg hc]
        rw [e3] at hc
        have h1 : 2 * s ≤ Nat.sqrt n := Nat.le_sqrt'.mpr hlow
        have h2' : Nat.sqrt n < 2 * s + 1 := Nat.sqrt_lt'.mpr (by omega)
        omega

theorem isqrt_eq_sqrt (n : Nat) : isqrt n = Nat.sqrt n :=
  isqrtAux_eq_sqrt n n (Nat.le_refl n)

theorem vSize_nonneg (p : Point) : 0 ≤ vSize p := by
  simp [vSize]

theorem append_pair_getLast? (xs : List Point3) (a t : Point3) :
    (xs ++ [a, t]).getLast? = some t := by
  rw [show xs ++ [a, t] = (xs ++ [a]) ++ [t] by simp]
  exact List.getLast?_concat _

theorem append_pair_get? (xs : List Point3) (a t : Point3) :
    (xs ++ [a, t]).get? ((xs ++ [a, t]).length - 2) = some a := by
  have h1 : (xs ++ [a, t]).length - 2 = xs.length := by simp
  rw [h1, List.get?_append_right (le_refl _)]
  simp

theorem append_pair_dropLast (xs : List Point3) (a t : Point3) :
    (xs ++ [a, t]).dropLast = xs ++ [a] := by
  rw [show xs ++ [a, t] = (xs ++ [a]) ++ [t] by simp]
  exact List.dropLast_concat

/-- Characterization of `adjustEdgeEnd` in direction UP on a polyline
decomposed as `xs ++ [a, t]`, when the destination differs from the
endpoint. -/
theorem adjustEdgeEnd_up_eq (xs : List Point3) (a t dest : Point3) (h : t ≠ dest) :
    adjustEdgeEnd (xs ++ [a, t]) Direction.UP dest =
      if bendFar a t dest then xs ++ [a, bendPoint a t dest, dest]
      else xs ++ [a, dest] := by
  unfold adjustEdgeEnd bendFar bendPoint
  simp only [eq_self_iff_true, if_true, append_pair_getLast?, if_neg h, append_pair_get?,
    append_pair_dropLast]
  split <;> simp

/-- Characterization of `adjustEdgeEnd` in direction DOWN on a polyline
decomposed as `t :: a :: rest`, when the destination differs from the
endpoint. -/
theorem adjustEdgeEnd_down_eq (t a : Point3) (rest : List Point3) (dest : Point3)
    (h : t ≠ dest) :
    adjustEdgeEnd (t :: a :: rest) Direction.DOWN dest =
      if bendFar a t dest then dest :: bendPoint a t dest :: a :: rest
      else dest :: a :: rest := by
  unfold adjustEdgeEnd
  rw [if_neg (by simp : ¬(Direction.DOWN = Direction.UP))]
  simp only [List.head?_cons]
  simp only [if_neg h]
  rw [if_neg (by simp : ¬(Direction.DOWN = Direction.UP))]
  simp only [List.get?_cons_succ, List.get?_cons_zero]
  unfold bendFar bendPoint
  split <;> simp

/-- Claim C4 is corrected: at this concrete input — polyline
`[(3,4,0), (0,0,100)]`, direction UP, destination `(30,40,100) ≠ t` — the
routine produces a different polyline than the claim's prescription
`bend = t + dir * (m / 2) / n` with `n` the 3D length of the adjacent
segment (embedded verbatim as `adjustEdgeEndClaimModel`). -/
theorem claim_C4_counterexample :
    adjustEdgeEnd [⟨3, 4, 0⟩, ⟨0, 0, 100⟩] Direction.UP ⟨30, 40, 100⟩ =
        [⟨3, 4, 0⟩, ⟨15, 20, -400⟩, ⟨30, 40, 100⟩] ∧
      adjustEdgeEndClaimModel [⟨3, 4, 0⟩, ⟨0, 0, 100⟩] Direction.UP ⟨30, 40, 100⟩ =
        [⟨3, 4, 0⟩, ⟨0, 1, 75⟩, ⟨30, 40, 100⟩] ∧
      (⟨0, 0, 100⟩ : Point3) ≠ (⟨30, 40, 100⟩ : Point3) := by
  exact ⟨by decide, by decide, by decide⟩

/-- Claim C4 (amended): the bend policy as the code implements it.  For
every polyline decomposed around the endpoint to move (`t`, with polyline
neighbor `a`) and destination different from `t`, the routine computes
`bend = t + dir * m / 2 / n` evaluated left to right with componentwise
truncating division, where `dir = a - t`, `m` is the 2D distance from `t`
to the destination and `n` the **2D** length of the adjacent segment
(`bendPoint`); the bend is inserted as a new interior point adjacent to
the moved endpoint iff both squared 3D distances `‖bend - a‖²` and
`‖bend - destination‖²` exceed 100 (`bendFar`); in either case the
endpoint is set to the destination. -/
theorem claim_C4_bend_policy :
    (∀ (xs : List Point3) (a t dest : Point3), t ≠ dest →
      adjustEdgeEnd (xs ++ [a, t]) Direction.UP dest =
        if bendFar a t dest then xs ++ [a, bendPoint a t dest, dest]
        else xs ++ [a, dest]) ∧
    (∀ (t a : Point3) (rest : List Point3) (dest : Point3), t ≠ dest →
      adjustEdgeEnd (t :: a :: rest) Direction.DOWN dest =
        if bendFar a t dest then dest :: bendPoint a t dest :: a :: rest
        else dest :: a :: rest) :=
  ⟨adjustEdgeEnd_up_eq, adjustEdgeEnd_down_eq⟩

theorem claim_C4_bend_policy_witness :
    adjustEdgeEnd ([] ++ [(⟨3, 4, 0⟩ : Point3), ⟨0, 0, 100⟩]) Direction.UP ⟨30, 40, 100⟩ =
      if bendFar ⟨3, 4, 0⟩ ⟨0, 0, 100⟩ ⟨30, 40, 100⟩ then
        [] ++ [(⟨3, 4, 0⟩ : Point3), bendPoint ⟨3, 4, 0⟩ ⟨0, 0, 100⟩ ⟨30, 40, 100⟩,
          ⟨30, 40, 100⟩]
      else [] ++ [(⟨3, 4, 0⟩ : Point3), ⟨30, 40, 100⟩] :=
  claim_C4_bend_policy.1 [] ⟨3, 4, 0⟩ ⟨0, 0, 100⟩ ⟨30, 40, 100⟩ (by decide)

/-- Claim C5 is corrected: with a destination whose XY equals the moved
endpoint's XY (2D move length `m = 0`) but whose z differs, the polyline
does change — the endpoint moves to the destination and the old endpoint
is re-inserted as a bend. -/
theorem claim_C5_counterexample :
    vSize (psub (toPoint (⟨0, 100, 140⟩ : Point3)) (toPoint (⟨0, 100, 100⟩ : Point3))) = 0 ∧
      endPointToMove [⟨0, 0, 0⟩, ⟨0, 100, 100⟩] Direction.UP = ⟨0, 100, 100⟩ ∧
      adjustEdgeEnd [⟨0, 0, 0⟩, ⟨0, 100, 100⟩] Direction.UP ⟨0, 100, 140⟩ =
        [⟨0, 0, 0⟩, ⟨0, 100, 100⟩, ⟨0, 100, 140⟩] := by
  exact ⟨by decide, by decide, by decide⟩

/-- Claim C5 (amended): the actual no-op condition of Adjust Edge End is
full 3D equality of the destination with the endpoint to move; such a
call leaves every polyline unchanged. -/
theorem claim_C5_noop (l : List Point3) (up_down : Direction) :
    adjustEdgeEnd l up_down (endPointToMove l up_down) = l := by
  unfold adjustEdgeEnd endPointToMove
  by_cases hV : up_down = Direction.UP
  · simp only [hV, eq_self_iff_true, if_true]
    cases h : l.getLast? with
    | none => simp
    | some t => simp [h]
  · simp only [if_neg hV]
    cases h : l.head? with
    | none => simp
    | some t => simp [h]

theorem lastZ_cons_cons (a b : Point3) (rest : List Point3) :
    lastZ (a :: b :: rest) = lastZ (b :: rest) := by
  simp [lastZ, List.getLast?_cons_cons]

theorem psub_ne_zero {p q : Point} (h : p ≠ q) : psub q p ≠ (⟨0, 0⟩ : Point) := by
  intro hc
  apply h
  cases p
  cases q
  simp only [psub, Point.mk.injEq] at hc
  simp only [Point.mk.injEq]
  omega

theorem headZ_le_lastZ (x : Point3) (xs : List Point3)
    (h : zWeakMono (x :: xs) = true) : x.z ≤ lastZ (x :: xs) := by
  induction xs generalizing x with
  | nil => simp [lastZ]
  | cons y ys ih =>
    simp only [zWeakMono, Bool.and_eq_true, decide_eq_true_eq] at h
    have := ih y h.2
    rw [lastZ_cons_cons]
    omega

theorem zStrict_imp_weak (l : List Point3) (h : zStrictMono l = true) :
    zWeakMono l = true := by
  induction l with
  | nil => rfl
  | cons a l ih =>
    cases l with
    | nil => rfl
    | cons b rest =>
      simp only [zStrictMono, Bool.and_eq_true, decide_eq_true_eq] at h
      simp only [zWeakMono, Bool.and_eq_true, decide_eq_true_eq]
      exact ⟨le_of_lt h.1, ih h.2⟩

theorem scan_in_range (a b : Point3) (rest : List Point3) (z : Int)
    (hxy : xyDistinct (a :: b :: rest) = true)
    (hz : z ≤ lastZ (a :: b :: rest)) :
    (getCellEdgeLocationScan (a :: b :: rest) z).fired = false ∧
      ((getCellEdgeLocationScan (a :: b :: rest) z).pt).isSome := by
  induction rest generalizing a b with
  | nil =>
    simp only [xyDistinct, Bool.and_eq_true, decide_eq_true_eq] at hxy
    have hzb : z ≤ b.z := by
      have : lastZ [a, b] = b.z := by simp [lastZ]
      omega
    simp only [getCellEdgeLocationScan, if_pos hzb]
    constructor
    · simp [psub_ne_zero hxy.1]
    · simp
  | cons c rest ih =>
    simp only [xyDistinct, Bool.and_eq_true, decide_eq_true_eq] at hxy
    by_cases hzb : z ≤ b.z
    · simp only [getCellEdgeLocationScan, if_pos hzb]
      constructor
      · simp [psub_ne_zero hxy.1]
      · simp
    · simp only [getCellEdgeLocationScan, if_neg hzb]
      apply ih b c
      · simp only [xyDistinct, Bool.and_eq_true, decide_eq_true_eq]
        exact hxy.2
      · rw [lastZ_cons_cons] at hz
        exact hz

theorem scan_past_end (l : List Point3) (z : Int) (hmono : zWeakMono l = true)
    (hz : lastZ l < z) : getCellEdgeLocationScan l z = ⟨true, none⟩ := by
  induction l with
  | nil => rfl
  | cons a l ih =>
    cases l with
    | nil => rfl
    | cons b rest =>
      have hle : b.z ≤ lastZ (b :: rest) := by
        apply headZ_le_lastZ
        simp only [zWeakMono, Bool.and_eq_true, decide_eq_true_eq] at hmono
        exact hmono.2
      rw [lastZ_cons_cons] at hz
      have hgt : ¬(z ≤ b.z) := by omega
      simp only [getCellEdgeLocationScan, if_neg hgt]
      apply ih
      · simp only [zWeakMono, Bool.and_eq_true, decide_eq_true_eq] at hmono
        exact hmono.2
      · exact hz

/-- Claim C3 is corrected: (first block) the polyline
`[(0,0,0), (0,0,100)]` satisfies POLY and `z = 50` lies inside its z-range,
yet the defensive assertion fires — `assert(edge_direction != Point(0,0))`
tests the XY direction, not equal z samples, and a POLY polyline may
contain a vertical segment; (second block) for `z` **below** the range no
assertion fires at all: the routine extrapolates from the first segment
and returns a 2D point. -/
theorem claim_C3_counterexample :
    (zStrictMono [⟨0, 0, 0⟩, ⟨0, 0, 100⟩] = true ∧
      lastZ [⟨0, 0, 0⟩, ⟨0, 0, 100⟩] = 100 ∧ (0 : Int) ≤ 50 ∧ (50 : Int) ≤ 100 ∧
      (getCellEdgeLocationScan [⟨0, 0, 0⟩, ⟨0, 0, 100⟩] 50).fired = true) ∧
    (zStrictMono [⟨0, 1, 0⟩, ⟨2, 3, 100⟩] = true ∧ (-5 : Int) < 0 ∧
      getCellEdgeLocationScan [⟨0, 1, 0⟩, ⟨2, 3, 100⟩] (-5) =
        ⟨false, some ⟨0, 1⟩⟩) := by
  exact ⟨by decide, by decide⟩

/-- Claim C3 (amended): for every polyline satisfying POLY whose
consecutive samples also differ in XY, and every `z ≤ p_last.z`, the scan
reaches a pair with `z ≤ p_{i+1}.z` before indexing past the end, no
assertion fires and a 2D point is returned (for `z` below `p_0.z` this
extrapolates from the first segment rather than being caught); for
`z > p_last.z` the scan runs past the polyline — an out-of-bounds read in
C++ followed by `assert(false)`. -/
theorem claim_C3_query_safety (l : List Point3) (z : Int) (hlen : 2 ≤ l.length)
    (hpoly : zStrictMono l = true) (hxy : xyDistinct l = true) :
    (z ≤ lastZ l → (getCellEdgeLocationScan l z).fired = false ∧
        ((getCellEdgeLocationScan l z).pt).isSome) ∧
    (lastZ l < z → getCellEdgeLocationScan l z = ⟨true, none⟩) := by
  constructor
  · intro hz
    match l, hlen with
    | a :: b :: rest, _ => exact scan_in_range a b rest z hxy hz
  · intro hz
    exact scan_past_end l z (zStrict_imp_weak l hpoly) hz

theorem claim_C3_query_safety_witness :
    (getCellEdgeLocationScan [⟨0, 0, 0⟩, ⟨3, 4, 10⟩] 5).fired = false ∧
      ((getCellEdgeLocationScan [⟨0, 0, 0⟩, ⟨3, 4, 10⟩] 5).pt).isSome :=
  (claim_C3_query_safety [⟨0, 0, 0⟩, ⟨3, 4, 10⟩] 5 (by decide) (by decide)
    (by decide)).1 (by decide)

theorem tdiv_halved_bounds_nonneg (k m n : Int) (hk : 0 ≤ k) (hm : 0 ≤ m)
    (hn : 0 < n) (hmn : m ≤ 2 * n) :
    0 ≤ ((k * m).tdiv 2).tdiv n ∧ ((k * m).tdiv 2).tdiv n ≤ k := by
  have hkm : 0 ≤ k * m := mul_nonneg hk hm
  have h2 : (k * m).tdiv 2 = (k * m) / 2 := Int.tdiv_eq_ediv hkm (by norm_num)
  have hq : 0 ≤ (k * m) / 2 := Int.ediv_nonneg hkm (by norm_num)
  have h3 : ((k * m).tdiv 2).tdiv n = ((k * m) / 2) / n := by
    rw [h2]
    exact Int.tdiv_eq_ediv hq (le_of_lt hn)
  constructor
  · rw [h3]
    exact Int.ediv_nonneg hq (le_of_lt hn)
  · rw [h3]
    have hle1 : k * m ≤ k * (2 * n) := mul_le_mul_of_nonneg_left hmn hk
    have hle2 : (k * m) / 2 ≤ (k * (2 * n)) / 2 := Int.ediv_le_ediv (by norm_num) hle1
    have he : (k * (2 * n)) / 2 = k * n := by
      rw [show k * (2 * n) = (k * n) * 2 by ring]
      exact Int.mul_ediv_cancel _ (by norm_num)
    have hle3 : ((k * m) / 2) / n ≤ (k * n) / n :=
      Int.ediv_le_ediv hn (by linarith)
    have he2 : (k * n) / n = k := Int.mul_ediv_cancel _ (ne_of_gt hn)
    linarith

theorem tdiv_halved_bounds_nonpos (dz m n : Int) (hdz : dz ≤ 0) (hm : 0 ≤ m)
    (hn : 0 < n) (hmn : m ≤ 2 * n) :
    dz ≤ ((dz * m).tdiv 2).tdiv n ∧ ((dz * m).tdiv 2).tdiv n ≤ 0 := by
  have h := tdiv_halved_bounds_nonneg (-dz) m n (by omega) hm hn hmn
  have he : (((-dz) * m).tdiv 2).tdiv n = -(((dz * m).tdiv 2).tdiv n) := by
    rw [show (-dz) * m = -(dz * m) by ring, Int.neg_tdiv, Int.neg_tdiv]
  rw [he] at h
  omega

theorem bendPoint_z (a t dest : Point3) :
    (bendPoint a t dest).z =
      t.z + (((a.z - t.z) * vSize (psub (toPoint dest) (toPoint t))).tdiv 2).tdiv
        (vSize (toPoint (p3sub a t))) := rfl

theorem zWeakMono_iff_chain (l : List Point3) :
    zWeakMono l = true ↔ List.Chain' (fun p q : Point3 => p.z ≤ q.z) l := by
  induction l with
  | nil => simp [zWeakMono]
  | cons a l ih =>
    cases l with
    | nil => simp [zWeakMono]
    | cons b rest =>
      simp only [zWeakMono, Bool.and_eq_true, decide_eq_true_eq, List.chain'_cons]
      exact and_congr Iff.rfl ih

/-- Shared form of the no-op case: pulling a polyline's end toward the
end itself changes nothing. -/
theorem adjust_noop (l : List Point3) (up_down : Direction) :
    adjustEdgeEnd l up_down (endPointToMove l up_down) = l := by
  unfold adjustEdgeEnd endPointToMove
  by_cases hV : up_down = Direction.UP
  · simp only [hV, eq_self_iff_true, if_true]
    cases h : l.getLast? with
    | none => simp
    | some t => simp [h]
  · simp only [if_neg hV]
    cases h : l.head? with
    | none => simp
    | some t => simp [h]

/-- Adjust Edge End in direction UP preserves weak z-monotonicity when the
destination sits at the moved endpoint's z, the adjacent segment has
nonzero 2D length `n`, and the 2D move length is at most `2n`. -/
theorem adjust_up_weakMono (xs : List Point3) (a t dest : Point3)
    (hz : dest.z = t.z)
    (hn : vSize (toPoint (p3sub a t)) ≠ 0)
    (hm : vSize (psub (toPoint dest) (toPoint t)) ≤ 2 * vSize (toPoint (p3sub a t)))
    (hmono : zWeakMono (xs ++ [a, t]) = true) :
    zWeakMono (adjustEdgeEnd (xs ++ [a, t]) Direction.UP dest) = true := by
  by_cases ht : t = dest
  · have hend : endPointToMove (xs ++ [a, t]) Direction.UP = t := by
      simp [endPointToMove, append_pair_getLast?]
    have hself : adjustEdgeEnd (xs ++ [a, t]) Direction.UP t = xs ++ [a, t] := by
      have h0 := adjust_noop (xs ++ [a, t]) Direction.UP
      rwa [hend] at h0
    rw [← ht, hself]
    exact hmono
  · rw [adjustEdgeEnd_up_eq xs a t dest ht]
    rw [zWeakMono_iff_chain, List.chain'_append] at hmono
    obtain ⟨hxs, hat, hlink⟩ := hmono
    rw [List.chain'_cons] at hat
    have haz : a.z ≤ t.z := hat.1
    have hn0 : 0 < vSize (toPoint (p3sub a t)) :=
      lt_of_le_of_ne (vSize_nonneg _) (Ne.symm hn)
    have hm0 : 0 ≤ vSize (psub (toPoint dest) (toPoint t)) := vSize_nonneg _
    have hb := tdiv_halved_bounds_nonpos (a.z - t.z)
      (vSize (psub (toPoint dest) (toPoint t))) (vSize (toPoint (p3sub a t)))
      (by omega) hm0 hn0 hm
    have hbz1 : a.z ≤ (bendPoint a t dest).z := by
      rw [bendPoint_z]
      omega
    have hbz2 : (bendPoint a t dest).z ≤ dest.z := by
      rw [bendPoint_z, hz]
      omega
    split
    · rw [zWeakMono_iff_chain, List.chain'_append]
      refine ⟨hxs, ?_, ?_⟩
      · rw [List.chain'_cons, List.chain'_cons]
        exact ⟨hbz1, hbz2, List.chain'_singleton _⟩
      · intro x hx y hy
        simp only [List.head?_cons, Option.mem_def, Option.some.injEq] at hy
        subst hy
        exact hlink x hx a (by simp)
    · rw [zWeakMono_iff_chain, List.chain'_append]
      refine ⟨hxs, ?_, ?_⟩
      · rw [List.chain'_cons]
        exact ⟨by omega, List.chain'_singleton _⟩
      · intro x hx y hy
        simp only [List.head?_cons, Option.mem_def, Option.some.injEq] at hy
        subst hy
        exact hlink x hx a (by simp)

/-- Adjust Edge End in direction DOWN preserves weak z-monotonicity under
the same conditions. -/
theorem adjust_down_weakMono (t a : Point3) (rest : List Point3) (dest : Point3)
    (hz : dest.z = t.z)
    (hn : vSize (toPoint (p3sub a t)) ≠ 0)
    (hm : vSize (psub (toPoint dest) (toPoint t)) ≤ 2 * vSize (toPoint (p3sub a t)))
    (hmono : zWeakMono (t :: a :: rest) = true) :
    zWeakMono (adjustEdgeEnd (t :: a :: rest) Direction.DOWN dest) = true := by
  by_cases ht : t = dest
  · have hend : endPointToMove (t :: a :: rest) Direction.DOWN = t := by
      simp [endPointToMove]
    have hself : adjustEdgeEnd (t :: a :: rest) Direction.DOWN t = t :: a :: rest := by
      have h0 := adjust_noop (t :: a :: rest) Direction.DOWN
      rwa [hend] at h0
    rw [← ht, hself]
    exact hmono
  · rw [adjustEdgeEnd_down_eq t a rest dest ht]
    rw [zWeakMono_iff_chain, List.chain'_cons] at hmono
    obtain ⟨hta, hrest⟩ := hmono
    have hn0 : 0 < vSize (toPoint (p3sub a t)) :=
      lt_of_le_of_ne (vSize_nonneg _) (Ne.symm hn)
    have hm0 : 0 ≤ vSize (psub (toPoint dest) (toPoint t)) := vSize_nonneg _
    have hneg := tdiv_halved_bounds_nonneg (a.z - t.z)
      (vSize (psub (toPoint dest) (toPoint t))) (vSize (toPoint (p3sub a t)))
      (by omega) hm0 hn0 hm
    have hbz1 : dest.z ≤ (bendPoint a t dest).z := by
      rw [bendPoint_z, hz]
      omega
    have hbz2 : (bendPoint a t dest).z ≤ a.z := by
      rw [bendPoint_z]
      omega
    split
    · rw [zWeakMono_iff_chain, List.chain'_cons, List.chain'_cons]
      exact ⟨hbz1, hbz2, hrest⟩
    · rw [zWeakMono_iff_chain, List.chain'_cons]
      exact ⟨by omega, hrest⟩

theorem adjustEdgeEnd_length (l : List Point3) (V : Direction) (d : Point3) :
    l.length ≤ (adjustEdgeEnd l V d).length := by
  unfold adjustEdgeEnd
  repeat' split
  all_goals try exact le_refl _
  all_goals dsimp only
  all_goals repeat' split
  all_goals simp [List.length_dropLast, List.length_tail]
  all_goals omega

theorem osc_length (s : Cross3D) (m : EdgeMaps) (i : Nat) (S V : Direction)
    (l : List Point3) :
    l.length ≤ (applyOscillationConstraints s m i S V l).length := by
  unfold applyOscillationConstraints
  repeat' split
  all_goals first
    | exact le_refl _
    | exact adjustEdgeEnd_length _ _ _

theorem addCellEdge_length (s : Cross3D) (m : EdgeMaps) (i : Nat) (S : Direction) :
    2 ≤ (addCellEdge s m i S).length := by
  have h0 : (initialEdge (cellAt s i) S).length = 2 := by
    simp [initialEdge]
  have h1 := osc_length s m i S Direction.UP (initialEdge (cellAt s i) S)
  have h2 := osc_length s m i S Direction.DOWN
    (applyOscillationConstraints s m i S Direction.UP (initialEdge (cellAt s i) S))
  unfold addCellEdge
  dsimp only
  omega

theorem ownsSide_left_iff (s : Cross3D) (i : Nat) :
    ownsSide s i Direction.LEFT ↔
      getNeighborDepth s (cellAt s i) Direction.LEFT < (cellAt s i).depth := by
  simp [ownsSide]

theorem ownsSide_right_iff (s : Cross3D) (i : Nat) :
    ownsSide s i Direction.RIGHT ↔
      getNeighborDepth s (cellAt s i) Direction.RIGHT ≤ (cellAt s i).depth := by
  simp [ownsSide]

theorem addCellEdges_left_other (s : Cross3D) (m : EdgeMaps) {i j : Nat} (h : i ≠ j) :
    (addCellEdges s m j).left i = m.left i := by
  unfold addCellEdges
  by_cases h1 : getNeighborDepth s (cellAt s j) Direction.LEFT < (cellAt s j).depth <;>
    by_cases h2 : getNeighborDepth s (cellAt s j) Direction.RIGHT ≤ (cellAt s j).depth <;>
      simp [h1, h2, updF, h]

theorem addCellEdges_left_self_not (s : Cross3D) (m : EdgeMaps) (j : Nat)
    (h : ¬ ownsSide s j Direction.LEFT) :
    (addCellEdges s m j).left j = m.left j := by
  rw [ownsSide_left_iff] at h
  unfold addCellEdges
  by_cases h2 : getNeighborDepth s (cellAt s j) Direction.RIGHT ≤ (cellAt s j).depth <;>
    simp [h, h2]

theorem addCellEdges_left_self_owns (s : Cross3D) (m : EdgeMaps) (j : Nat)
    (h : ownsSide s j Direction.LEFT) :
    (addCellEdges s m j).left j = some (addCellEdge s m j Direction.LEFT) := by
  rw [ownsSide_left_iff] at h
  unfold addCellEdges
  by_cases h2 : getNeighborDepth s (cellAt s j) Direction.RIGHT ≤ (cellAt s j).depth <;>
    simp [h, h2, updF]

theorem addCellEdges_right_other (s : Cross3D) (m : EdgeMaps) {i j : Nat} (h : i ≠ j) :
    (addCellEdges s m j).right i = m.right i := by
  unfold addCellEdges
  by_cases h1 : getNeighborDepth s (cellAt s j) Direction.LEFT < (cellAt s j).depth <;>
    by_cases h2 : getNeighborDepth s (cellAt s j) Direction.RIGHT ≤ (cellAt s j).depth <;>
      simp [h1, h2, updF, h]

theorem addCellEdges_right_self_not (s : Cross3D) (m : EdgeMaps) (j : Nat)
    (h : ¬ ownsSide s j Direction.RIGHT) :
    (addCellEdges s m j).right j = m.right j := by
  rw [ownsSide_right_iff] at h
  unfold addCellEdges
  by_cases h1 : getNeighborDepth s (cellAt s j) Direction.LEFT < (cellAt s j).depth <;>
    simp [h, h1]

theorem addCellEdges_right_self_owns (s : Cross3D) (m : EdgeMaps) (j : Nat)
    (h : ownsSide s j Direction.RIGHT) :
    ∃ mm, (addCellEdges s m j).right j = some (addCellEdge s mm j Direction.RIGHT) := by
  rw [ownsSide_right_iff] at h
  unfold addCellEdges
  by_cases h1 : getNeighborDepth s (cellAt s j) Direction.LEFT < (cellAt s j).depth <;>
    simp [h, h1, updF] <;> exact ⟨_, rfl⟩

theorem addCellEdges_left_isSome_mono (s : Cross3D) (m : EdgeMaps) (j i : Nat)
    (h : (m.left i).isSome = true) : ((addCellEdges s m j).left i).isSome = true := by
  by_cases hij : i = j
  · subst hij
    by_cases ho : ownsSide s i Direction.LEFT
    · rw [addCellEdges_left_self_owns s m i ho]
      rfl
    · rw [addCellEdges_left_self_not s m i ho]
      exact h
  · rw [addCellEdges_left_other s m hij]
    exact h

theorem addCellEdges_right_isSome_mono (s : Cross3D) (m : EdgeMaps) (j i : Nat)
    (h : (m.right i).isSome = true) : ((addCellEdges s m j).right i).isSome = true := by
  by_cases hij : i = j
  · subst hij
    by_cases ho : ownsSide s i Direction.RIGHT
    · obtain ⟨mm, hmm⟩ := addCellEdges_right_self_owns s m i ho
      rw [hmm]
      rfl
    · rw [addCellEdges_right_self_not s m i ho]
      exact h
  · rw [addCellEdges_right_other s m hij]
    exact h

theorem foldl_left_isSome_mono (s : Cross3D) (L : List Nat) (m : EdgeMaps) (i : Nat)
    (h : (m.left i).isSome = true) :
    ((L.foldl (addCellEdges s) m).left i).isSome = true := by
  induction L generalizing m with
  | nil => exact h
  | cons j L ih =>
    simp only [List.foldl_cons]
    exact ih _ (addCellEdges_left_isSome_mono s m j i h)

theorem foldl_right_isSome_mono (s : Cross3D) (L : List Nat) (m : EdgeMaps) (i : Nat)
    (h : (m.right i).isSome = true) :
    ((L.foldl (addCellEdges s) m).right i).isSome = true := by
  induction L generalizing m with
  | nil => exact h
  | cons j L ih =>
    simp only [List.foldl_cons]
    exact ih _ (addCellEdges_right_isSome_mono s m j i h)

theorem foldl_left_isSome_of_mem (s : Cross3D) (L : List Nat) (m : EdgeMaps) (i : Nat)
    (hi : i ∈ L) (h : ownsSide s i Direction.LEFT) :
    ((L.foldl (addCellEdges s) m).left i).isSome = true := by
  induction L generalizing m with
  | nil => cases hi
  | cons j L ih =>
    simp only [List.foldl_cons]
    rcases List.mem_cons.mp hi with hij | hmem
    · subst hij
      apply foldl_left_isSome_mono
      rw [addCellEdges_left_self_owns s m i h]
      rfl
    · exact ih _ hmem

theorem foldl_right_isSome_of_mem (s : Cross3D) (L : List Nat) (m : EdgeMaps) (i : Nat)
    (hi : i ∈ L) (h : ownsSide s i Direction.RIGHT) :
    ((L.foldl (addCellEdges s) m).right i).isSome = true := by
  induction L generalizing m with
  | nil => cases hi
  | cons j L ih =>
    simp only [List.foldl_cons]
    rcases List.mem_cons.mp hi with hij | hmem
    · subst hij
      apply foldl_right_isSome_mono
      obtain ⟨mm, hmm⟩ := addCellEdges_right_self_owns s m i h
      rw [hmm]
      rfl
    · exact ih _ hmem

theorem foldl_left_eq_of_no (s : Cross3D) (L : List Nat) (m : EdgeMaps) (i : Nat)
    (h : ¬ ownsSide s i Direction.LEFT) :
    (L.foldl (addCellEdges s) m).left i = m.left i := by
  induction L generalizing m with
  | nil => rfl
  | cons j L ih =>
    simp only [List.foldl_cons]
    rw [ih]
    by_cases hij : i = j
    · subst hij
      exact addCellEdges_left_self_not s m i h
    · exact addCellEdges_left_other s m hij

theorem foldl_right_eq_of_no (s : Cross3D) (L : List Nat) (m : EdgeMaps) (i : Nat)
    (h : ¬ ownsSide s i Direction.RIGHT) :
    (L.foldl (addCellEdges s) m).right i = m.right i := by
  induction L generalizing m with
  | nil => rfl
  | cons j L ih =>
    simp only [List.foldl_cons]
    rw [ih]
    by_cases hij : i = j
    · subst hij
      exact addCellEdges_right_self_not s m i h
    · exact addCellEdges_right_other s m hij

theorem preventZ_left_eq (s : Cross3D) (inter : LineSegment → LineSegment → Point)
    (m : EdgeMaps) (i : Nat) (V : Direction) (j : Nat) :
    (preventZdiscontinuityProblem s inter m i V).left j = m.left j := by
  unfold preventZdiscontinuityProblem
  dsimp only
  repeat' split
  all_goals rfl

theorem preventZ_right_isSome (s : Cross3D) (inter : LineSegment → LineSegment → Point)
    (m : EdgeMaps) (i : Nat) (V : Direction) (j : Nat) :
    ((preventZdiscontinuityProblem s inter m i V).right j).isSome =
      (m.right j).isSome := by
  unfold preventZdiscontinuityProblem
  dsimp only
  repeat' split
  all_goals try rfl
  all_goals rename_i heq hV
  all_goals by_cases hj : j = ((cellAt s i).adjacent V).headD 0
  all_goals try (subst hj; rw [heq]; simp [updF])
  all_goals (simp only [updF]; rw [if_neg hj])

theorem preventZ_right_len_inv (s : Cross3D) (inter : LineSegment → LineSegment → Point)
    (m : EdgeMaps) (i : Nat) (V : Direction)
    (hR : ∀ j p, m.right j = some p → 2 ≤ p.length) :
    ∀ j p, (preventZdiscontinuityProblem s inter m i V).right j = some p →
      2 ≤ p.length := by
  intro j p hp
  unfold preventZdiscontinuityProblem at hp
  dsimp only at hp
  repeat' split at hp
  all_goals try (exact hR j p hp)
  all_goals rename_i heq hV
  all_goals by_cases hj : j = ((cellAt s i).adjacent V).headD 0
  all_goals try (simp only [updF, if_neg hj] at hp; exact hR _ _ hp)
  all_goals
    (subst hj
     simp only [updF, eq_self_iff_true, if_true, Option.some.injEq] at hp
     subst hp
     exact le_trans (hR _ _ heq) (adjustEdgeEnd_length _ _ _))

theorem resolveCell_left_eq (s : Cross3D) (inter : LineSegment → LineSegment → Point)
    (m : EdgeMaps) (i : Nat) (j : Nat) :
    (resolveCell s inter m i).left j = m.left j := by
  unfold resolveCell
  rw [preventZ_left_eq, preventZ_left_eq]

theorem resolveCell_right_isSome (s : Cross3D) (inter : LineSegment → LineSegment → Point)
    (m : EdgeMaps) (i : Nat) (j : Nat) :
    ((resolveCell s inter m i).right j).isSome = (m.right j).isSome := by
  unfold resolveCell
  rw [preventZ_right_isSome, preventZ_right_isSome]

theorem construct_left_eq_pass1 (inter : LineSegment → LineSegment → Point)
    (s : Cross3D) (j : Nat) :
    (constructNetwork inter s).left j = (buildPass1 s).left j := by
  unfold constructNetwork
  generalize buildPass1 s = m
  induction pass2Order s generalizing m with
  | nil => rfl
  | cons i L ih =>
    simp only [List.foldl_cons]
    rw [ih, resolveCell_left_eq]

theorem construct_right_isSome_pass1 (inter : LineSegment → LineSegment → Point)
    (s : Cross3D) (j : Nat) :
    ((constructNetwork inter s).right j).isSome = ((buildPass1 s).right j).isSome := by
  unfold constructNetwork
  generalize buildPass1 s = m
  induction pass2Order s generalizing m with
  | nil => rfl
  | cons i L ih =>
    simp only [List.foldl_cons]
    rw [ih, resolveCell_right_isSome]

theorem foldl_max_base_le (l : List Cell) (b : Nat) :
    b ≤ l.foldl (fun acc c => max acc c.depth.toNat) b := by
  induction l generalizing b with
  | nil => exact le_refl b
  | cons c l ih => exact le_trans (Nat.le_max_left _ _) (ih _)

theorem mem_le_foldl_max (l : List Cell) (b : Nat) (c : Cell) (hc : c ∈ l) :
    c.depth.toNat ≤ l.foldl (fun acc x => max acc x.depth.toNat) b := by
  induction l generalizing b with
  | nil => cases hc
  | cons d l ih =>
    rcases List.mem_cons.mp hc with h | h
    · subst h
      exact le_trans (Nat.le_max_right _ _) (foldl_max_base_le l _)
    · exact ih _ h

theorem cellAt_mem (s : Cross3D) (i : Nat) (hi : i < s.cell_data.length) :
    cellAt s i ∈ s.cell_data := by
  unfold cellAt
  rw [List.getD_eq_getElem?_getD, List.getElem?_eq_getElem hi]
  exact List.getElem_mem hi

theorem maxDepth_ge (s : Cross3D) (i : Nat) (hi : i < s.cell_data.length) :
    (cellAt s i).depth.toNat ≤ maxDepthNat s :=
  mem_le_foldl_max _ 0 _ (cellAt_mem s i hi)

theorem mem_layerCells (s : Cross3D) (i : Nat) (hi : i < s.cell_data.length)
    (hd : 0 ≤ (cellAt s i).depth) :
    i ∈ layerCells s ((cellAt s i).depth.toNat) := by
  unfold layerCells
  rw [List.mem_filter]
  refine ⟨List.mem_range.mpr hi, ?_⟩
  simp [Int.toNat_of_nonneg hd]

theorem mem_pass1Order (s : Cross3D) (i : Nat) (hi : i < s.cell_data.length)
    (hd : 0 ≤ (cellAt s i).depth) : i ∈ pass1Order s := by
  unfold pass1Order
  rw [List.mem_flatten]
  refine ⟨layerCells s ((cellAt s i).depth.toNat), ?_, mem_layerCells s i hi hd⟩
  rw [List.mem_map]
  refine ⟨(cellAt s i).depth.toNat, ?_, rfl⟩
  rw [List.mem_reverse, List.mem_range]
  exact Nat.lt_succ_of_le (maxDepth_ge s i hi)

theorem buildPass1_left_isSome_iff (s : Cross3D) (i : Nat) (hi : i < s.cell_data.length)
    (hd : 0 ≤ (cellAt s i).depth) :
    ((buildPass1 s).left i).isSome = true ↔ ownsSide s i Direction.LEFT := by
  constructor
  · intro h
    by_contra ho
    unfold buildPass1 at h
    rw [foldl_left_eq_of_no s _ _ _ ho] at h
    simp [emptyMaps] at h
  · intro ho
    exact foldl_left_isSome_of_mem s _ _ _ (mem_pass1Order s i hi hd) ho

theorem buildPass1_right_isSome_iff (s : Cross3D) (i : Nat) (hi : i < s.cell_data.length)
    (hd : 0 ≤ (cellAt s i).depth) :
    ((buildPass1 s).right i).isSome = true ↔ ownsSide s i Direction.RIGHT := by
  constructor
  · intro h
    by_contra ho
    unfold buildPass1 at h
    rw [foldl_right_eq_of_no s _ _ _ ho] at h
    simp [emptyMaps] at h
  · intro ho
    exact foldl_right_isSome_of_mem s _ _ _ (mem_pass1Order s i hi hd) ho

/-- Claim C1 (confirmed): after construction, a cell's LEFT edge is stored
iff the cell is strictly deeper than its LEFT neighbor
(`getNeighborDepth`, which is the front LEFT neighbor's depth, or the
`char` sentinel 127 when there is none), and its RIGHT edge is stored iff
the cell is at least as deep as its RIGHT neighbor; in particular, for two
equal-depth mutual lateral neighbors, the left cell stores the shared edge
in its RIGHT mapping and the right cell stores nothing in its LEFT
mapping. -/
theorem claim_C1_ownership (inter : LineSegment → LineSegment → Point) (s : Cross3D) :
    (∀ i, i < s.cell_data.length → 0 ≤ (cellAt s i).depth →
      (((constructNetwork inter s).left i).isSome = true ↔
        getNeighborDepth s (cellAt s i) Direction.LEFT < (cellAt s i).depth) ∧
      (((constructNetwork inter s).right i).isSome = true ↔
        getNeighborDepth s (cellAt s i) Direction.RIGHT ≤ (cellAt s i).depth)) ∧
    (∀ i j tr tl, i < s.cell_data.length → j < s.cell_data.length →
      0 ≤ (cellAt s i).depth →
      (cellAt s i).adjacent Direction.RIGHT = j :: tr →
      (cellAt s j).adjacent Direction.LEFT = i :: tl →
      (cellAt s j).depth = (cellAt s i).depth →
      ((constructNetwork inter s).right i).isSome = true ∧
        (constructNetwork inter s).left j = none) := by
  constructor
  · intro i hi hd
    constructor
    · rw [construct_left_eq_pass1, ← ownsSide_left_iff]
      exact buildPass1_left_isSome_iff s i hi hd
    · rw [construct_right_isSome_pass1, ← ownsSide_right_iff]
      exact buildPass1_right_isSome_iff s i hi hd
  · intro i j tr tl hi hj hd hadjR hadjL hdep
    have hnR : getNeighborDepth s (cellAt s i) Direction.RIGHT = (cellAt s j).depth := by
      unfold getNeighborDepth
      rw [hadjR]
    have hnL : getNeighborDepth s (cellAt s j) Direction.LEFT = (cellAt s i).depth := by
      unfold getNeighborDepth
      rw [hadjL]
    constructor
    · rw [construct_right_isSome_pass1]
      apply foldl_right_isSome_of_mem s _ _ _ (mem_pass1Order s i hi hd)
      rw [ownsSide_right_iff, hnR, hdep]
    · rw [construct_left_eq_pass1]
      unfold buildPass1
      rw [foldl_left_eq_of_no]
      · rfl
      · rw [ownsSide_left_iff, hnL, hdep]
        omega

theorem claim_C1_ownership_witness :
    ((constructNetwork constIntersection viewShallowPair).right 0).isSome = true ∧
      (constructNetwork constIntersection viewShallowPair).left 1 = none :=
  (claim_C1_ownership constIntersection viewShallowPair).2 0 1 [] [] (by decide)
    (by decide) (by decide) (by decide) (by decide) (by decide)

/-- Claim C10 is corrected: a cell at depth 127 — the exact sentinel value
`getNeighborDepth` returns for an empty adjacency list — with no RIGHT
neighbor passes the `depth >= 127` RIGHT ownership test and does store a
RIGHT edge. -/
theorem claim_C10_counterexample :
    (cellAt viewDepthMax 0).adjacent Direction.RIGHT = [] ∧
      (cellAt viewDepthMax 0).depth = 127 ∧
      ((constructNetwork constIntersection viewDepthMax).right 0).isSome = true := by
  refine ⟨by decide, by decide, ?_⟩
  set_option maxRecDepth 400000 in decide

/-- Claim C10 (amended): a cell with no neighbor on a lateral side never
stores that side's edge, provided its depth is below the sentinel — any
depth `≤ 127` suffices for LEFT (strict test), and depth `< 127` for RIGHT
(non-strict test); at depth exactly 127 the RIGHT test ties with the
sentinel and the edge is stored. -/
theorem claim_C10_boundary (inter : LineSegment → LineSegment → Point) (s : Cross3D)
    (i : Nat) :
    ((cellAt s i).adjacent Direction.LEFT = [] → (cellAt s i).depth ≤ 127 →
      (constructNetwork inter s).left i = none) ∧
    ((cellAt s i).adjacent Direction.RIGHT = [] → (cellAt s i).depth < 127 →
      (constructNetwork inter s).right i = none) := by
  constructor
  · intro hadj hdep
    rw [construct_left_eq_pass1]
    unfold buildPass1
    rw [foldl_left_eq_of_no]
    · rfl
    · rw [ownsSide_left_iff]
      unfold getNeighborDepth
      rw [hadj]
      dsimp only
      omega
  · intro hadj hdep
    have h : ((constructNetwork inter s).right i).isSome = false := by
      rw [construct_right_isSome_pass1]
      unfold buildPass1
      rw [foldl_right_eq_of_no]
      · rfl
      · rw [ownsSide_right_iff]
        unfold getNeighborDepth
        rw [hadj]
        dsimp only
        omega
    cases hx : (constructNetwork inter s).right i with
    | none => rfl
    | some v =>
      rw [hx] at h
      cases h

theorem claim_C10_boundary_witness :
    (constructNetwork constIntersection viewLoneCell).left 0 = none ∧
      (constructNetwork constIntersection viewLoneCell).right 0 = none :=
  ⟨(claim_C10_boundary constIntersection viewLoneCell 0).1 (by decide) (by decide),
   (claim_C10_boundary constIntersection viewLoneCell 0).2 (by decide) (by decide)⟩

theorem addCellEdges_len_inv (s : Cross3D) (m : EdgeMaps) (j : Nat)
    (hL : ∀ i p, m.left i = some p → 2 ≤ p.length)
    (hR : ∀ i p, m.right i = some p → 2 ≤ p.length) :
    (∀ i p, (addCellEdges s m j).left i = some p → 2 ≤ p.length) ∧
      (∀ i p, (addCellEdges s m j).right i = some p → 2 ≤ p.length) := by
  constructor <;> intro i p hp
  · by_cases hij : i = j
    · subst hij
      by_cases ho : ownsSide s i Direction.LEFT
      · rw [addCellEdges_left_self_owns s m i ho] at hp
        injection hp with hpp
        rw [← hpp]
        exact addCellEdge_length s m i Direction.LEFT
      · rw [addCellEdges_left_self_not s m i ho] at hp
        exact hL _ _ hp
    · rw [addCellEdges_left_other s m hij] at hp
      exact hL _ _ hp
  · by_cases hij : i = j
    · subst hij
      by_cases ho : ownsSide s i Direction.RIGHT
      · obtain ⟨mm, hmm⟩ := addCellEdges_right_self_owns s m i ho
        rw [hmm] at hp
        injection hp with hpp
        rw [← hpp]
        exact addCellEdge_length s mm i Direction.RIGHT
      · rw [addCellEdges_right_self_not s m i ho] at hp
        exact hR _ _ hp
    · rw [addCellEdges_right_other s m hij] at hp
      exact hR _ _ hp

theorem foldl_len_inv (s : Cross3D) (L : List Nat) (m : EdgeMaps)
    (hL : ∀ i p, m.left i = some p → 2 ≤ p.length)
    (hR : ∀ i p, m.right i = some p → 2 ≤ p.length) :
    (∀ i p, (L.foldl (addCellEdges s) m).left i = some p → 2 ≤ p.length) ∧
      (∀ i p, (L.foldl (addCellEdges s) m).right i = some p → 2 ≤ p.length) := by
  induction L generalizing m with
  | nil => exact ⟨hL, hR⟩
  | cons j L ih =>
    simp only [List.foldl_cons]
    obtain ⟨hL2, hR2⟩ := addCellEdges_len_inv s m j hL hR
    exact ih _ hL2 hR2

theorem pass2_len_inv (s : Cross3D) (inter : LineSegment → LineSegment → Point)
    (L : List Nat) (m : EdgeMaps)
    (hR : ∀ i p, m.right i = some p → 2 ≤ p.length) :
    ∀ i p, (L.foldl (resolveCell s inter) m).right i = some p → 2 ≤ p.length := by
  induction L generalizing m with
  | nil => exact hR
  | cons j L ih =>
    simp only [List.foldl_cons]
    apply ih
    unfold resolveCell
    apply preventZ_right_len_inv
    apply preventZ_right_len_inv
    exact hR

/-- Claim C2 is corrected: at this concrete four-cell input the completed
construction stores, for the coarse cell 0, a RIGHT polyline whose bend
has the same z as the moved endpoint — the halved move's z-offset
truncates to 0 — so the stored polyline is not strictly z-monotone. -/
theorem claim_C2_counterexample :
    (constructNetwork constIntersection viewBendFlat).right 0 =
        some [⟨1000, 0, 0⟩, ⟨20, 0, 10⟩, ⟨40, 0, 10⟩] ∧
      zStrictMono [⟨1000, 0, 0⟩, ⟨20, 0, 10⟩, ⟨40, 0, 10⟩] = false := by
  constructor
  · set_option maxRecDepth 400000 in decide
  · decide

/-- Claim C2 (amended): every stored polyline keeps at least 2 points
through both passes; an initial polyline is strictly z-monotone exactly
when the cell's z-range is nonempty (`z_min < z_max`); and an Adjust Edge
End step preserves **weak** z-monotonicity whenever its destination lies
at the moved endpoint's z, the adjacent segment has nonzero 2D length `n`,
and the 2D move length is at most `2n` — strictness is not preserved in
general (the bend's z-offset can truncate to zero, as the counterexample
shows). -/
theorem claim_C2_poly :
    (∀ (inter : LineSegment → LineSegment → Point) (s : Cross3D) (i : Nat)
        (p : List Point3),
      ((constructNetwork inter s).left i = some p ∨
        (constructNetwork inter s).right i = some p) → 2 ≤ p.length) ∧
    (∀ (cell : Cell) (side : Direction),
      zStrictMono (initialEdge cell side) = true ↔ cell.z_min < cell.z_max) ∧
    (∀ (xs : List Point3) (a t dest : Point3), dest.z = t.z →
      vSize (toPoint (p3sub a t)) ≠ 0 →
      vSize (psub (toPoint dest) (toPoint t)) ≤ 2 * vSize (toPoint (p3sub a t)) →
      zWeakMono (xs ++ [a, t]) = true →
      zWeakMono (adjustEdgeEnd (xs ++ [a, t]) Direction.UP dest) = true) ∧
    (∀ (t a : Point3) (rest : List Point3) (dest : Point3), dest.z = t.z →
      vSize (toPoint (p3sub a t)) ≠ 0 →
      vSize (psub (toPoint dest) (toPoint t)) ≤ 2 * vSize (toPoint (p3sub a t)) →
      zWeakMono (t :: a :: rest) = true →
      zWeakMono (adjustEdgeEnd (t :: a :: rest) Direction.DOWN dest) = true) := by
  refine ⟨?_, ?_, adjust_up_weakMono, adjust_down_weakMono⟩
  · intro inter s i p hp
    have hbase := foldl_len_inv s (pass1Order s) emptyMaps
      (by intro i p h; cases h) (by intro i p h; cases h)
    rcases hp with hp | hp
    · rw [construct_left_eq_pass1] at hp
      exact hbase.1 i p hp
    · unfold constructNetwork at hp
      exact pass2_len_inv s inter (pass2Order s) (buildPass1 s) hbase.2 i p hp
  · intro cell side
    simp [initialEdge, zStrictMono]

theorem claim_C2_poly_witness :
    zWeakMono (adjustEdgeEnd ([] ++ [(⟨0, 0, 0⟩ : Point3), ⟨10, 0, 100⟩])
      Direction.UP ⟨14, 3, 100⟩) = true :=
  claim_C2_poly.2.2.1 [] ⟨0, 0, 0⟩ ⟨10, 0, 100⟩ ⟨14, 3, 100⟩ (by decide) (by decide)
    (by decide) (by decide)

/-- Claim C6 (confirmed): the oscillation-constraint routine leaves the
polyline unchanged when the cell's `adjacent[V]` list is empty (top or
bottom layer), and likewise when the cell is at least as deep as both the
inner-corner vertical neighbor `N_V` and that neighbor's lateral-S
neighbor `N_VS`; in both cases it returns before any move destination is
computed. -/
theorem claim_C6_osc_no_constraint (s : Cross3D) (m : EdgeMaps) (i : Nat)
    (S V : Direction) (locs : List Point3) :
    ((cellAt s i).adjacent V = [] →
      applyOscillationConstraints s m i S V locs = locs) ∧
    (∀ n t m1 ms nIdx sIdx,
      (cellAt s i).adjacent V = n :: t →
      nIdx = (if S = Direction.LEFT then n else (n :: t).getLastD n) →
      (cellAt s nIdx).adjacent S = m1 :: ms →
      sIdx = (if V = Direction.UP then m1 else (m1 :: ms).getLastD m1) →
      (cellAt s nIdx).depth ≤ (cellAt s i).depth →
      (cellAt s sIdx).depth ≤ (cellAt s i).depth →
      applyOscillationConstraints s m i S V locs = locs) := by
  constructor
  · intro h
    unfold applyOscillationConstraints oscRef
    dsimp only
    rw [h]
  · intro n t m1 ms nIdx sIdx hadj hn hs1 hsi hd1 hd2
    unfold applyOscillationConstraints oscRef
    dsimp only
    rw [hadj]
    dsimp only
    rw [← hn, hs1]
    dsimp only
    rw [← hsi]
    rw [if_pos (max_le hd1 hd2)]

theorem claim_C6_osc_no_constraint_witness :
    applyOscillationConstraints viewBendFlat emptyMaps 1 Direction.RIGHT Direction.DOWN
      [⟨0, 0, 0⟩, ⟨1, 1, 10⟩] = [⟨0, 0, 0⟩, ⟨1, 1, 10⟩] :=
  (claim_C6_osc_no_constraint viewBendFlat emptyMaps 1 Direction.RIGHT Direction.DOWN
    [⟨0, 0, 0⟩, ⟨1, 1, 10⟩]).2 0 [] 3 [] 0 3 (by decide) (by decide) (by decide)
    (by decide) (by decide) (by decide)

/-- Claim C7 (confirmed): the discontinuity resolver does nothing when the
cell has fewer than two neighbors in direction `V`; otherwise — whenever
the side-edge lookups and the front neighbor's RIGHT-edge entry all
resolve — it replaces exactly that front (leftmost) neighbor's RIGHT-edge
polyline by the result of Adjust Edge End in direction `opposite(V)`
toward the intersection of the neighbor's to-edge with the 2D segment
joining the cell's LEFT- and RIGHT-side edge endpoints at the `V`
boundary, lifted to the neighbor's `z_min` (UP) or `z_max` (DOWN); all
other entries of both mappings are untouched. -/
theorem claim_C7_resolver (s : Cross3D) (inter : LineSegment → LineSegment → Point)
    (m : EdgeMaps) (i : Nat) (V : Direction) :
    (((cellAt s i).adjacent V).length < 2 →
      preventZdiscontinuityProblem s inter m i V = m) ∧
    (∀ eL eR f3 t3 tr,
      2 ≤ ((cellAt s i).adjacent V).length →
      getEdge s m i Direction.LEFT V = some eL →
      getEdge s m i Direction.RIGHT V = some eR →
      (if V = Direction.UP then eL.getLast? else eL.head?) = some f3 →
      (if V = Direction.UP then eR.getLast? else eR.head?) = some t3 →
      m.right (((cellAt s i).adjacent V).headD 0) = some tr →
      (preventZdiscontinuityProblem s inter m i V).right
          (((cellAt s i).adjacent V).headD 0) =
        some (adjustEdgeEnd tr V.opposite
          ⟨(inter (cellAt s (((cellAt s i).adjacent V).headD 0)).toEdge
              ⟨toPoint f3, toPoint t3⟩).x,
            (inter (cellAt s (((cellAt s i).adjacent V).headD 0)).toEdge
              ⟨toPoint f3, toPoint t3⟩).y,
            if V = Direction.UP then
              (cellAt s (((cellAt s i).adjacent V).headD 0)).z_min
            else (cellAt s (((cellAt s i).adjacent V).headD 0)).z_max⟩) ∧
      (∀ j, j ≠ ((cellAt s i).adjacent V).headD 0 →
        (preventZdiscontinuityProblem s inter m i V).right j = m.right j) ∧
      (∀ j, (preventZdiscontinuityProblem s inter m i V).left j = m.left j)) := by
  constructor
  · intro h
    unfold preventZdiscontinuityProblem
    dsimp only
    rw [if_pos h]
  · intro eL eR f3 t3 tr hlen hL hR hf ht htr
    have hnot : ¬ ((cellAt s i).adjacent V).length < 2 := by omega
    have key : preventZdiscontinuityProblem s inter m i V =
        { m with
          right := updF m.right (((cellAt s i).adjacent V).headD 0)
            (adjustEdgeEnd tr V.opposite
              ⟨(inter (cellAt s (((cellAt s i).adjacent V).headD 0)).toEdge
                  ⟨toPoint f3, toPoint t3⟩).x,
                (inter (cellAt s (((cellAt s i).adjacent V).headD 0)).toEdge
                  ⟨toPoint f3, toPoint t3⟩).y,
                if V = Direction.UP then
                  (cellAt s (((cellAt s i).adjacent V).headD 0)).z_min
                else (cellAt s (((cellAt s i).adjacent V).headD 0)).z_max⟩) } := by
      unfold preventZdiscontinuityProblem
      dsimp only
      rw [if_neg hnot, hL, hR]
      dsimp only
      rw [hf, ht]
      dsimp only
      rw [htr]
    refine ⟨?_, ?_, ?_⟩
    · rw [key]
      simp [updF]
    · intro j hj
      rw [key]
      show updF m.right (((cellAt s i).adjacent V).headD 0) _ j = m.right j
      unfold updF
      rw [if_neg hj]
    · intro j
      rw [key]

theorem claim_C7_resolver_witness :
    preventZdiscontinuityProblem viewShallowPair constIntersection emptyMaps 0
      Direction.UP = emptyMaps :=
  (claim_C7_resolver viewShallowPair constIntersection emptyMaps 0 Direction.UP).1
    (by decide)

theorem shallow_pair_not_inclinationOK :
    ¬ inclinationOK ⟨0, 0, 0⟩ ⟨1000, 0, 10⟩ := by
  unfold inclinationOK
  have hv : vSize (psub (toPoint (⟨1000, 0, 10⟩ : Point3))
      (toPoint (⟨0, 0, 0⟩ : Point3))) = 1000 := by decide
  rw [hv]
  intro hgt
  have hπ3 := Real.pi_gt_three
  have hπ0 := Real.pi_pos
  have ht0 : 0 < 35 * Real.pi / 180 := by positivity
  have ht2 : 35 * Real.pi / 180 < Real.pi / 2 := by linarith
  have htan := Real.lt_tan ht0 ht2
  have harg : (((10 : Int) : ℝ) - ((0 : Int) : ℝ)) / ((1000 : Int) : ℝ) <
      Real.tan (35 * Real.pi / 180) := by
    push_cast
    have : (10 - 0 : ℝ) / 1000 = 1 / 100 := by norm_num
    rw [this]
    have h1 : (1 : ℝ) / 100 < 35 * Real.pi / 180 := by linarith
    linarith
  have hmono := Real.arctan_strictMono harg
  rw [Real.arctan_tan (by linarith) ht2] at hmono
  simp only [show ((10 : Int) - (0 : Int) : Int) = (10 : Int) by norm_num] at hgt
  push_cast at hgt hmono
  linarith

theorem steep_ratio_inclinationOK (b a : Point3)
    (hxy : 0 < vSize (psub (toPoint a) (toPoint b)))
    (hz : vSize (psub (toPoint a) (toPoint b)) ≤ a.z - b.z) :
    inclinationOK b a := by
  unfold inclinationOK
  have hπ0 := Real.pi_pos
  have hxyR : (0 : ℝ) < ((vSize (psub (toPoint a) (toPoint b)) : Int) : ℝ) := by
    exact_mod_cast hxy
  have h1 : (1 : ℝ) ≤ ((a.z - b.z : Int) : ℝ) /
      ((vSize (psub (toPoint a) (toPoint b)) : Int) : ℝ) := by
    rw [le_div_iff hxyR]
    rw [one_mul]
    exact_mod_cast hz
  have h2 := Real.arctan_strictMono.monotone h1
  rw [Real.arctan_one] at h2
  have h3 : 35 * Real.pi / 180 < Real.pi / 4 := by linarith
  linarith

/-- Claim C8 is corrected: this two-cell view builds, for cell 0, the
stored RIGHT polyline `[(0,0,0), (1000,0,10)]`, whose only segment rises
10 µm over 1000 µm of XY — an inclination of `atan(1/100)`, far below
35°. -/
theorem claim_C8_counterexample :
    (constructNetwork constIntersection viewShallowPair).right 0 =
        some [⟨0, 0, 0⟩, ⟨1000, 0, 10⟩] ∧
      ¬ inclinationOK ⟨0, 0, 0⟩ ⟨1000, 0, 10⟩ :=
  ⟨by decide, shallow_pair_not_inclinationOK⟩

/-- Claim C8 (amended): the two construction passes do not by themselves
establish the 35° inclination invariant — there is a view whose completed
network stores a consecutive pair violating it (first conjunct) — the
property holds only for subdivision inputs whose geometry provides it, and
is asserted post-hoc by `debugCheckInclination` in debug builds; what does
hold universally is that every stored consecutive pair whose z-increase is
at least its 2D distance (inclination ≥ 45°) satisfies the 35° bound
(second conjunct). -/
theorem claim_C8_inclination :
    (∃ (s : Cross3D) (i : Nat) (p : List Point3) (b a : Point3),
      (constructNetwork constIntersection s).right i = some p ∧
        p = [b, a] ∧ ¬ inclinationOK b a) ∧
    (∀ (inter : LineSegment → LineSegment → Point) (s : Cross3D) (i : Nat)
        (p : List Point3),
      ((constructNetwork inter s).left i = some p ∨
        (constructNetwork inter s).right i = some p) →
      ∀ (k : Nat) (b a : Point3), p.get? k = some b → p.get? (k + 1) = some a →
        0 < vSize (psub (toPoint a) (toPoint b)) →
        vSize (psub (toPoint a) (toPoint b)) ≤ a.z - b.z →
        inclinationOK b a) := by
  constructor
  · exact ⟨viewShallowPair, 0, [⟨0, 0, 0⟩, ⟨1000, 0, 10⟩], ⟨0, 0, 0⟩, ⟨1000, 0, 10⟩,
      by decide, rfl, shallow_pair_not_inclinationOK⟩
  · intro inter s i p hp k b a hb ha hxy hz
    exact steep_ratio_inclinationOK b a hxy hz

theorem claim_C8_inclination_witness :
    inclinationOK ⟨0, 0, 0⟩ ⟨10, 0, 1000⟩ :=
  claim_C8_inclination.2 constIntersection viewSteepPair 0
    [⟨0, 0, 0⟩, ⟨10, 0, 1000⟩] (Or.inr (by decide)) 0 ⟨0, 0, 0⟩ ⟨10, 0, 1000⟩
    (by decide) (by decide) (by decide) (by decide)

theorem validAdjB_spec (s : Cross3D) (h : validAdjB s = true) {i : Nat}
    (hi : i < s.cell_data.length) (d : Direction) {j : Nat}
    (hj : j ∈ (cellAt s i).adjacent d) : j < s.cell_data.length := by
  unfold validAdjB at h
  rw [List.all_eq_true] at h
  have hc := h (cellAt s i) (cellAt_mem s i hi)
  rw [List.all_eq_true] at hc
  have hdmem : d ∈ [Direction.LEFT, Direction.RIGHT, Direction.UP, Direction.DOWN] := by
    cases d <;> simp
  have hdd := hc d hdmem
  rw [List.all_eq_true] at hdd
  simpa using hdd j hj

theorem lateralMutualB_spec (s : Cross3D) (h : lateralMutualB s = true) {i : Nat}
    (hi : i < s.cell_data.length) {d : Direction}
    (hd : d = Direction.LEFT ∨ d = Direction.RIGHT) {j : Nat}
    (hj : j ∈ (cellAt s i).adjacent d) : i ∈ (cellAt s j).adjacent d.opposite := by
  unfold lateralMutualB at h
  rw [List.all_eq_true] at h
  have h1 := h i (List.mem_range.mpr hi)
  rw [List.all_eq_true] at h1
  have hdmem : d ∈ [Direction.LEFT, Direction.RIGHT] := by
    rcases hd with h' | h' <;> simp [h']
  have h2 := h1 d hdmem
  rw [List.all_eq_true] at h2
  simpa using h2 j hj

theorem lateralMultiDeeperB_spec (s : Cross3D) (h : lateralMultiDeeperB s = true)
    {i : Nat} (hi : i < s.cell_data.length) {d : Direction}
    (hd : d = Direction.LEFT ∨ d = Direction.RIGHT)
    (hlen : 2 ≤ ((cellAt s i).adjacent d).length) {j : Nat}
    (hj : j ∈ (cellAt s i).adjacent d) :
    (cellAt s i).depth < (cellAt s j).depth := by
  unfold lateralMultiDeeperB at h
  rw [List.all_eq_true] at h
  have h1 := h i (List.mem_range.mpr hi)
  rw [List.all_eq_true] at h1
  have hdmem : d ∈ [Direction.LEFT, Direction.RIGHT] := by
    rcases hd with h' | h' <;> simp [h']
  have h2 := h1 d hdmem
  rw [Bool.or_eq_true, Bool.not_eq_true', decide_eq_false_iff_not] at h2
  rcases h2 with h2 | h2
  · exact absurd hlen h2
  · rw [List.all_eq_true] at h2
    simpa using h2 j hj

theorem mem_getLastD (t : List Nat) (n : Nat) : t.getLastD n ∈ n :: t := by
  induction t generalizing n with
  | nil => simp
  | cons a t ih =>
    rw [List.getLastD_cons]
    exact List.mem_cons_of_mem n (ih a)

theorem mapsLE_isSome (m1 m2 : EdgeMaps) (h : mapsLE m1 m2) (side : Direction)
    (r : Nat) (hs : (mapFor m1 side r).isSome = true) :
    (mapFor m2 side r).isSome = true := by
  unfold mapFor at hs ⊢
  by_cases hside : side = Direction.LEFT
  · rw [if_pos hside] at hs ⊢
    exact h.1 r hs
  · rw [if_neg hside] at hs ⊢
    exact h.2 r hs

theorem pass1Before_isSome (s : Cross3D) (d : Nat) (r : Nat) (side : Direction)
    (hr : r < s.cell_data.length)
    (hside : side = Direction.LEFT ∨ side = Direction.RIGHT)
    (ho : ownsSide s r side)
    (hd : (d : Int) < (cellAt s r).depth) :
    (mapFor (pass1Before s d) side r).isSome = true := by
  have hd0 : 0 ≤ (cellAt s r).depth := by omega
  have hmem : r ∈ (((List.range' (d + 1) (maxDepthNat s - d)).reverse.map
      (layerCells s)).flatten) := by
    rw [List.mem_flatten]
    refine ⟨layerCells s ((cellAt s r).depth.toNat), ?_, mem_layerCells s r hr hd0⟩
    rw [List.mem_map]
    refine ⟨(cellAt s r).depth.toNat, ?_, rfl⟩
    rw [List.mem_reverse, List.mem_range'_1]
    have hmax := maxDepth_ge s r hr
    omega
  unfold pass1Before mapFor
  rcases hside with hside | hside <;> subst hside
  · rw [if_pos rfl]
    exact foldl_left_isSome_of_mem s _ _ _ hmem ho
  · rw [if_neg (by simp : ¬(Direction.RIGHT = Direction.LEFT))]
    exact foldl_right_isSome_of_mem s _ _ _ hmem ho

theorem ownsSide_of_front (s : Cross3D) (r : Nat) (side : Direction) (x : Nat)
    (xs : List Nat) (hadj : (cellAt s r).adjacent side = x :: xs)
    (hx : if side = Direction.LEFT then (cellAt s x).depth < (cellAt s r).depth
      else (cellAt s x).depth ≤ (cellAt s r).depth) :
    ownsSide s r side := by
  unfold ownsSide
  have hgn : getNeighborDepth s (cellAt s r) side = (cellAt s x).depth := by
    unfold getNeighborDepth
    rw [hadj]
  by_cases hSL : side = Direction.LEFT
  · subst hSL
    rw [if_pos rfl] at hx ⊢
    rw [hgn]
    exact hx
  · rw [if_neg hSL] at hx ⊢
    rw [hgn]
    exact hx

/-- Claim C9 (confirmed): whenever the oscillation-constraint routine for a
cell selects a reference edge — the guard `depth >= max(...)` having
failed — the selected reference cell is strictly deeper than the cell, it
owns the side-mapping the routine looks the edge up in, and that entry is
already present in the builder state once all strictly deeper layers have
been processed (and in any later state), so the dereferenced lookup
succeeds and the missing-ownership assertion is unreachable.  The
structural hypotheses are facts of Cross3D subdivisions: neighbor indices
are valid, lateral adjacency is mutual, and a cell has two or more
neighbors on one side only when all of them are finer. -/
theorem claim_C9_read_discipline (s : Cross3D)
    (hval : validAdjB s = true)
    (hmut : lateralMutualB s = true)
    (hmulti : lateralMultiDeeperB s = true)
    (i : Nat) (hi : i < s.cell_data.length) (hd0 : 0 ≤ (cellAt s i).depth)
    (S V : Direction) (hS : S = Direction.LEFT ∨ S = Direction.RIGHT)
    (r : Nat) (mside : Direction)
    (hsel : oscRef s i S V = some (r, mside)) :
    (cellAt s i).depth < (cellAt s r).depth ∧
      ownsSide s r mside ∧
      (∀ mm : EdgeMaps,
        mapsLE (pass1Before s (cellAt s i).depth.toNat) mm →
        (mapFor mm mside r).isSome = true) := by
  unfold oscRef at hsel
  dsimp only at hsel
  cases hadj : (cellAt s i).adjacent V with
  | nil =>
    rw [hadj] at hsel
    simp at hsel
  | cons n t =>
    rw [hadj] at hsel
    dsimp only at hsel
    set nIdx := (if S = Direction.LEFT then n else (n :: t).getLastD n) with hnIdx
    have hnmem : nIdx ∈ (cellAt s i).adjacent V := by
      rw [hadj, hnIdx]
      by_cases hSL : S = Direction.LEFT
      · rw [if_pos hSL]
        exact List.mem_cons_self n t
      · rw [if_neg hSL, List.getLastD_cons]
        exact mem_getLastD t n
    have hnlen : nIdx < s.cell_data.length := validAdjB_spec s hval hi V hnmem
    cases hadjS : (cellAt s nIdx).adjacent S with
    | nil =>
      rw [hadjS] at hsel
      simp at hsel
    | cons m1 ms =>
      rw [hadjS] at hsel
      dsimp only at hsel
      set sIdx := (if V = Direction.UP then m1 else (m1 :: ms).getLastD m1) with hsIdx
      have hsmem : sIdx ∈ (cellAt s nIdx).adjacent S := by
        rw [hadjS, hsIdx]
        by_cases hVU : V = Direction.UP
        · rw [if_pos hVU]
          exact List.mem_cons_self m1 ms
        · rw [if_neg hVU, List.getLastD_cons]
          exact mem_getLastD ms m1
      have hslen : sIdx < s.cell_data.length := validAdjB_spec s hval hnlen S hsmem
      have hsplit : sIdx = m1 ∨ 2 ≤ ((cellAt s nIdx).adjacent S).length := by
        by_cases hVU : V = Direction.UP
        · left
          rw [hsIdx, if_pos hVU]
        · cases ms with
          | nil =>
            left
            rw [hsIdx, if_neg hVU]
            simp
          | cons m2 ms2 =>
            right
            rw [hadjS]
            simp
      by_cases hguard : max (cellAt s nIdx).depth (cellAt s sIdx).depth ≤
          (cellAt s i).depth
      · rw [if_pos hguard] at hsel
        simp at hsel
      · rw [if_neg hguard] at hsel
        have hmax : (cellAt s i).depth <
            max (cellAt s nIdx).depth (cellAt s sIdx).depth := not_le.mp hguard
        by_cases hbranch : (cellAt s sIdx).depth < (cellAt s nIdx).depth ∨
            (S = Direction.RIGHT ∧ (cellAt s nIdx).depth = (cellAt s sIdx).depth)
        · rw [if_pos hbranch] at hsel
          simp only [Option.some.injEq, Prod.mk.injEq] at hsel
          obtain ⟨hr, hms⟩ := hsel
          subst hr
          subst hms
          have hqn : (cellAt s sIdx).depth ≤ (cellAt s nIdx).depth := by
            rcases hbranch with hb | ⟨_, hb⟩ <;> omega
          have hdep : (cellAt s i).depth < (cellAt s nIdx).depth := by
            rw [max_eq_left hqn] at hmax
            exact hmax
          have hm1 : sIdx = m1 := by
            rcases hsplit with h | h
            · exact h
            · exfalso
              have hdeep := lateralMultiDeeperB_spec s hmulti hnlen hS h hsmem
              omega
          have hown : ownsSide s nIdx S := by
            apply ownsSide_of_front s nIdx S m1 ms hadjS
            rw [← hm1]
            by_cases hSL : S = Direction.LEFT
            · rw [if_pos hSL]
              rcases hbranch with hb | ⟨hbr, _⟩
              · exact hb
              · exfalso
                rw [hSL] at hbr
                cases hbr
            · rw [if_neg hSL]
              exact hqn
          refine ⟨hdep, hown, ?_⟩
          intro mm hmm
          apply mapsLE_isSome _ _ hmm
          apply pass1Before_isSome s _ nIdx S hnlen hS hown
          rw [Int.toNat_of_nonneg hd0]
          exact hdep
        · rw [if_neg hbranch] at hsel
          simp only [Option.some.injEq, Prod.mk.injEq] at hsel
          obtain ⟨hr, hms⟩ := hsel
          subst hr
          subst hms
          rw [not_or] at hbranch
          obtain ⟨hb1, hb2⟩ := hbranch
          have hnq : (cellAt s nIdx).depth ≤ (cellAt s sIdx).depth := not_lt.mp hb1
          have hdep : (cellAt s i).depth < (cellAt s sIdx).depth := by
            rw [max_eq_right hnq] at hmax
            exact hmax
          have hS' : S.opposite = Direction.LEFT ∨ S.opposite = Direction.RIGHT := by
            rcases hS with rfl | rfl <;> simp [Direction.opposite]
          have hmutual : nIdx ∈ (cellAt s sIdx).adjacent S.opposite :=
            lateralMutualB_spec s hmut hnlen hS hsmem
          have hown : ownsSide s sIdx S.opposite := by
            cases hadjO : (cellAt s sIdx).adjacent S.opposite with
            | nil =>
              rw [hadjO] at hmutual
              cases hmutual
            | cons x xs =>
              cases xs with
              | nil =>
                have hx : x = nIdx := by
                  rw [hadjO] at hmutual
                  exact (List.mem_singleton.mp hmutual).symm
                apply ownsSide_of_front s sIdx S.opposite x [] hadjO
                rw [hx]
                rcases hS with rfl | rfl
                · rw [if_neg (by simp [Direction.opposite] :
                    ¬(Direction.LEFT.opposite = Direction.LEFT))]
                  exact hnq
                · rw [if_pos (by simp [Direction.opposite] :
                    Direction.RIGHT.opposite = Direction.LEFT)]
                  have hne : (cellAt s nIdx).depth ≠ (cellAt s sIdx).depth := by
                    intro hc
                    exact hb2 ⟨rfl, hc⟩
                  omega
              | cons x2 xs2 =>
                exfalso
                have hlen2 : 2 ≤ ((cellAt s sIdx).adjacent S.opposite).length := by
                  rw [hadjO]
                  simp
                have hdeep := lateralMultiDeeperB_spec s hmulti hslen hS' hlen2 hmutual
                omega
          refine ⟨hdep, hown, ?_⟩
          intro mm hmm
          apply mapsLE_isSome _ _ hmm
          apply pass1Before_isSome s _ sIdx S.opposite hslen hS' hown
          rw [Int.toNat_of_nonneg hd0]
          exact hdep

theorem claim_C9_read_discipline_witness :
    (cellAt viewBendFlat 0).depth < (cellAt viewBendFlat 1).depth ∧
      ownsSide viewBendFlat 1 Direction.RIGHT ∧
      (∀ mm : EdgeMaps,
        mapsLE (pass1Before viewBendFlat (cellAt viewBendFlat 0).depth.toNat) mm →
        (mapFor mm Direction.RIGHT 1).isSome = true) :=
  claim_C9_read_discipline viewBendFlat (by decide) (by decide) (by decide) 0
    (by decide) (by decide) Direction.RIGHT Direction.UP (by decide) 1
    Direction.RIGHT (by decide)

end Cross3DPrism
